import Mathlib

/-!
# libdns-spaceship: wire-record codec and zone record manager

A shallow embedding of `spaceship_records.go`, `provider_config.go`,
`http_helpers.go` and `provider.go`, followed by the properties proved about it.

Conventions.
* Go `int` is a 64-bit signed integer.  It is embedded as `Int`; the decoders
  reject literals outside the 64-bit range and the additions of the pagination
  loop wrap (`wrapInt`).
* JSON text is embedded as its syntax tree `Json`; `none : Option Json` stands
  for bytes that are not well-formed JSON (which `json.Unmarshal` rejects with a
  syntax error before it looks at the target).
* The record translator (`toLibdnsRR` / `fromLibdnsRR`, file `conversions.go`)
  and the HTTP client are parameters of the operations.
-/

namespace Spaceship

/-! ## JSON values and the `encoding/json` primitives the code calls -/

/-- JSON syntax trees.  A number literal is either an integer literal
(`-?digits`, constructor `int`) or a literal with a fraction or an exponent
(constructor `real`, carrying the literal text). -/
inductive Json where
  | null
  | bool (b : Bool)
  | int (n : Int)
  | real (lit : String)
  | str (s : String)
  | arr (items : List Json)
  | obj (members : List (String × Json))

/-- Range of the Go type `int` on 64-bit platforms. -/
def inInt64 (n : Int) : Prop := -9223372036854775808 ≤ n ∧ n ≤ 9223372036854775807

instance (n : Int) : Decidable (inInt64 n) := by unfold inInt64; infer_instance

/-- Two's complement wrap-around of 64-bit `int` arithmetic. -/
def wrapInt (x : Int) : Int := (x + 9223372036854775808) % 18446744073709551616 - 9223372036854775808

/-- Model of `json.Unmarshal(b, &v)` for `v` of type `int` currently holding `cur`:
an integer literal in range is stored, `null` is accepted and leaves `v` alone,
everything else is an error (`none`). -/
def unmarshalInt (cur : Int) : Json → Option Int
  | .int n => if inInt64 n then some n else none
  | .null => some cur
  | _ => none

/-- Model of `json.Unmarshal(b, &v)` for `v` of type `string` currently holding `cur`. -/
def unmarshalString (cur : String) : Json → Option String
  | .str s => some s
  | .null => some cur
  | _ => none

/-- The map `raw` of `UnmarshalJSON`: `raw[key]` for the object with the given members
(of two members with the same key the later one wins). -/
def rawGet (members : List (String × Json)) (key : String) : Option Json :=
  members.reverse.lookup key

/-! ## `strings` and `strconv` helpers -/

/-- Go `strings.HasPrefix`. -/
def HasPrefix (s pre : String) : Bool := pre.data.isPrefixOf s.data

/-- Go `strings.TrimPrefix`. -/
def TrimPrefix (s pre : String) : String :=
  if HasPrefix s pre then ⟨s.data.drop pre.data.length⟩ else s

/-- Go `strings.HasSuffix`. -/
def HasSuffix (s suf : String) : Bool := suf.data.isSuffixOf s.data

/-- Go `strings.TrimSuffix`. -/
def TrimSuffix (s suf : String) : String :=
  if HasSuffix s suf then ⟨s.data.take (s.data.length - suf.data.length)⟩ else s

/-- Value of a string of decimal digits, most significant first. -/
def digitsValue (ds : List Char) : Nat :=
  ds.foldl (fun acc c => 10 * acc + (c.toNat - 48)) 0

/-- Unsigned part of `strconv.Atoi`: a non-empty run of ASCII digits. -/
def parseDigits (ds : List Char) : Option Nat :=
  if ds ≠ [] ∧ ds.all Char.isDigit then some (digitsValue ds) else none

/-- Go `strconv.Atoi`: an optional sign, then one or more decimal digits, the value
within the range of `int`; `none` stands for the syntax and range errors. -/
def Atoi (s : String) : Option Int :=
  let cs := s.data
  let digits := if cs.head? = some '-' ∨ cs.head? = some '+' then cs.tail else cs
  match parseDigits digits with
  | none => none
  | some v =>
    let n : Int := if cs.head? = some '-' then -(v : Int) else (v : Int)
    if inInt64 n then some n else none

/-- Whether a string is a decimal numeral: an optional sign followed by one or more
ASCII digits. -/
def isDecimalNumeral (cs : List Char) : Bool :=
  match cs with
  | [] => false
  | c :: rest =>
    if c = '-' ∨ c = '+' then (!rest.isEmpty) && rest.all Char.isDigit
    else (c :: rest).all Char.isDigit

/-- The integer a decimal numeral denotes. -/
def numeralValue (cs : List Char) : Int :=
  match cs with
  | [] => 0
  | c :: rest =>
    if c = '-' then -(digitsValue rest : Int)
    else if c = '+' then (digitsValue rest : Int)
    else (digitsValue (c :: rest) : Int)

/-! ## `spaceship_records.go` -/

/-- Dynamic value held by the `Port interface{}` field: the decoder stores an `int`
or a `string` there. -/
inductive PortValue where
  | int (n : Int)
  | str (s : String)
  deriving DecidableEq, Repr

/-- The struct `spaceshipRecordUnion`, with the embedded `ResourceRecordBase`
(`Type`, `Name`, `TTL`) flattened in; the field `Type` is spelled `Type_`.  A nil
`Port` interface and a nil `Flag` pointer are `none`. -/
structure spaceshipRecordUnion where
  Type_ : String := ""
  Name : String := ""
  TTL : Int := 0
  Address : String := ""
  Cname : String := ""
  Value : String := ""
  Exchange : String := ""
  Preference : Int := 0
  Service : String := ""
  Protocol : String := ""
  Priority : Int := 0
  Weight : Int := 0
  Port : Option PortValue := none
  PortInt : Int := 0
  Target : String := ""
  Nameserver : String := ""
  Pointer : String := ""
  Flag : Option Int := none
  Tag : String := ""
  SvcPriority : Int := 0
  SvcTarget : String := ""
  TargetName : String := ""
  SvcParams : String := ""
  deriving DecidableEq, Repr

/-- The closure `unmarshal` of `UnmarshalJSON` at a `string` field: decode when the key
is present, ignore a decoding error. -/
def unmarshalStringField (raw : List (String × Json)) (key : String) (cur : String) : String :=
  match rawGet raw key with
  | some b => (unmarshalString cur b).getD cur
  | none => cur

/-- The closure `unmarshal` of `UnmarshalJSON` at an `int` field. -/
def unmarshalIntField (raw : List (String × Json)) (key : String) (cur : Int) : Int :=
  match rawGet raw key with
  | some b => (unmarshalInt cur b).getD cur
  | none => cur

/-- The `protocol` branch of `UnmarshalJSON`. -/
def unmarshalProtocol (raw : List (String × Json)) (cur : String) : String :=
  match rawGet raw "protocol" with
  | some b =>
    match unmarshalString "" b with
    | some p => p
    | none => cur
  | none => cur

/-- The `port` branch of `UnmarshalJSON`: the new values of `Port` and `PortInt`. -/
def unmarshalPort (raw : List (String × Json)) (curPort : Option PortValue) (curPortInt : Int) :
    Option PortValue × Int :=
  match rawGet raw "port" with
  | some b =>
    match unmarshalInt 0 b with
    | some n => (some (.int n), n)
    | none =>
      match unmarshalString "" b with
      | some ps =>
        if HasPrefix ps "_" then
          match Atoi (TrimPrefix ps "_") with
          | some v => (some (.str ps), v)
          | none => (some (.str ps), curPortInt)
        else
          match Atoi ps with
          | some v => (some (.str ps), v)
          | none => (some (.str ps), curPortInt)
      | none => (curPort, curPortInt)
  | none => (curPort, curPortInt)

/-- The `flag` branch of `UnmarshalJSON`. -/
def unmarshalFlag (raw : List (String × Json)) (cur : Option Int) : Option Int :=
  match rawGet raw "flag" with
  | some b =>
    match unmarshalInt 0 b with
    | some f => some f
    | none => cur
  | none => cur

/-- The field assignments of `UnmarshalJSON` once `raw` is decoded. -/
def decodeFields (s : spaceshipRecordUnion) (raw : List (String × Json)) : spaceshipRecordUnion :=
  let port := unmarshalPort raw s.Port s.PortInt
  { Type_ := unmarshalStringField raw "type" s.Type_
    Name := unmarshalStringField raw "name" s.Name
    TTL := unmarshalIntField raw "ttl" s.TTL
    Address := unmarshalStringField raw "address" s.Address
    Cname := unmarshalStringField raw "cname" s.Cname
    Value := unmarshalStringField raw "value" s.Value
    Exchange := unmarshalStringField raw "exchange" s.Exchange
    Preference := unmarshalIntField raw "preference" s.Preference
    Service := unmarshalStringField raw "service" s.Service
    Protocol := unmarshalProtocol raw s.Protocol
    Priority := unmarshalIntField raw "priority" s.Priority
    Weight := unmarshalIntField raw "weight" s.Weight
    Port := port.1
    PortInt := port.2
    Target := unmarshalStringField raw "target" s.Target
    Nameserver := unmarshalStringField raw "nameserver" s.Nameserver
    Pointer := unmarshalStringField raw "pointer" s.Pointer
    Flag := unmarshalFlag raw s.Flag
    Tag := unmarshalStringField raw "tag" s.Tag
    SvcPriority := unmarshalIntField raw "svcPriority" s.SvcPriority
    SvcTarget := unmarshalStringField raw "svcTarget" s.SvcTarget
    TargetName := unmarshalStringField raw "targetName" s.TargetName
    SvcParams := unmarshalStringField raw "svcParams" s.SvcParams }

/-- Errors, one constructor per way the Go code builds one. -/
inductive Error where
  /-- An error whose text the code fixes (`fmt.Errorf` without `%w`). -/
  | msg (text : String)
  /-- An error value produced by a library (`encoding/json`, `net/http`, `io`). -/
  | lib (detail : String)
  /-- The error "API request failed with status %d: %s" of `doRequest`. -/
  | api (status : Int) (body : Option Json)
  /-- A wrapped error, `fmt.Errorf("<context>: %w", cause)`. -/
  | wrap (context : String) (cause : Error)

/-- The method `(*spaceshipRecordUnion).UnmarshalJSON`, on the receiver value `s`.
`json.Unmarshal(data, &raw)` fails on ill-formed input and on every value that is
neither an object nor `null`; on `null` it leaves the map nil, so no key is found. -/
def UnmarshalJSON (s : spaceshipRecordUnion) (data : Option Json) :
    Except Error spaceshipRecordUnion :=
  match data with
  | none => .error (.lib "json: syntax error")
  | some (.obj raw) => .ok (decodeFields s raw)
  | some .null => .ok (decodeFields s [])
  | some _ => .error (.lib "json: cannot unmarshal into Go value of type map[string]json.RawMessage")

/-- Decoding into a freshly allocated (zero) record. -/
def decodeRecord (data : Option Json) : Except Error spaceshipRecordUnion :=
  UnmarshalJSON {} data

/-- Encoding of the dynamic value of `Port`. -/
def PortValue.toJson : PortValue → Json
  | .int n => .int n
  | .str s => .str s

/-- A `string` field tagged `omitempty`. -/
def omitemptyString (key : String) (v : String) : List (String × Json) :=
  if v = "" then [] else [(key, .str v)]

/-- An `int` field tagged `omitempty`. -/
def omitemptyInt (key : String) (v : Int) : List (String × Json) :=
  if v = 0 then [] else [(key, .int v)]

/-- The `interface{}` field `Port` tagged `omitempty`: omitted when the interface is nil. -/
def omitemptyPort (key : String) (v : Option PortValue) : List (String × Json) :=
  match v with
  | none => []
  | some pv => [(key, pv.toJson)]

/-- The `*int` field `Flag` tagged `omitempty`: omitted when the pointer is nil. -/
def omitemptyFlag (key : String) (v : Option Int) : List (String × Json) :=
  match v with
  | none => []
  | some f => [(key, .int f)]

/-- Members of the object `json.Marshal` writes for a `spaceshipRecordUnion`, read off the
struct tags in field order (`PortInt` is tagged `json:"-"`). -/
def marshalMembers (s : spaceshipRecordUnion) : List (String × Json) :=
  [("type", .str s.Type_), ("name", .str s.Name)]
    ++ omitemptyInt "ttl" s.TTL
    ++ omitemptyString "address" s.Address
    ++ omitemptyString "cname" s.Cname
    ++ omitemptyString "value" s.Value
    ++ omitemptyString "exchange" s.Exchange
    ++ omitemptyInt "preference" s.Preference
    ++ omitemptyString "service" s.Service
    ++ omitemptyString "protocol" s.Protocol
    ++ omitemptyInt "priority" s.Priority
    ++ omitemptyInt "weight" s.Weight
    ++ omitemptyPort "port" s.Port
    ++ omitemptyString "target" s.Target
    ++ omitemptyString "nameserver" s.Nameserver
    ++ omitemptyString "pointer" s.Pointer
    ++ omitemptyFlag "flag" s.Flag
    ++ omitemptyString "tag" s.Tag
    ++ omitemptyInt "svcPriority" s.SvcPriority
    ++ omitemptyString "svcTarget" s.SvcTarget
    ++ omitemptyString "targetName" s.TargetName
    ++ omitemptyString "svcParams" s.SvcParams

/-- The value `json.Marshal` produces for a `spaceshipRecordUnion`. -/
def marshalRecord (s : spaceshipRecordUnion) : Json := .obj (marshalMembers s)

/-- Keys of the encoded object. -/
def marshalKeys (s : spaceshipRecordUnion) : List String := (marshalMembers s).map Prod.fst

/-! ## `provider_config.go` -/

/-- The struct `Provider`; its `HTTPClient` is the `Client` parameter of the operations. -/
structure Provider where
  APIKey : String := ""
  APISecret : String := ""
  BaseURL : String := ""
  PageSize : Int := 0

/-- The struct `listResponse`. -/
structure listResponse where
  Items : List spaceshipRecordUnion := []
  Total : Int := 0

/-- The method `validateCredentials`: the error it returns, if any. -/
def validateCredentials (p : Provider) : Option Error :=
  if p.APIKey = "" ∨ p.APISecret = "" then some (.msg "API key and secret are required")
  else none

/-! ## Decoding the list envelope with `encoding/json` -/

/-- Letter folding of the struct decoder's case-insensitive key match, towards the
lower-case ASCII letter. -/
def foldRune (c : Char) : Char :=
  if c = Char.ofNat 0x17F then 's' else if c = Char.ofNat 0x212A then 'k' else c.toLower

/-- Whether the object key `key` selects the struct field tagged `name` (an all
lower-case ASCII name): exactly or up to case. -/
def keyMatches (key name : String) : Bool := key.data.map foldRune = name.data

/-- Decoding a JSON array into the slice `Items`, whose backing array holds `backing`
(the elements of the slice followed by what earlier, longer decodes left behind): element
`i` is decoded by `UnmarshalJSON` onto the element at index `i` of the backing array, or
onto a zero record beyond it; an element that is neither an object nor `null` fails the
decoding. -/
def unmarshalItems : List spaceshipRecordUnion → List Json → Except Error (List spaceshipRecordUnion)
  | _, [] => .ok []
  | [], x :: xs =>
    match UnmarshalJSON {} (some x) with
    | .error e => .error e
    | .ok r =>
      match unmarshalItems [] xs with
      | .error e => .error e
      | .ok rs => .ok (r :: rs)
  | cur :: rest, x :: xs =>
    match UnmarshalJSON cur (some x) with
    | .error e => .error e
    | .ok r =>
      match unmarshalItems rest xs with
      | .error e => .error e
      | .ok rs => .ok (r :: rs)

/-- One member of the envelope object decoded into `st.1`; `st.2` is the content of the
backing array of `st.1.Items`.  A non-empty array is decoded in place and, when shorter
than the backing array, leaves its tail behind; `null` and the empty array replace the
slice, so nothing is left behind. -/
def unmarshalListMember (st : listResponse × List spaceshipRecordUnion) (kv : String × Json) :
    Except Error (listResponse × List spaceshipRecordUnion) :=
  if keyMatches kv.1 "items" then
    match kv.2 with
    | .arr xs =>
      match unmarshalItems st.2 xs with
      | .error e => .error e
      | .ok items =>
        .ok ({ st.1 with Items := items },
          if items.isEmpty then [] else items ++ st.2.drop items.length)
    | .null => .ok ({ st.1 with Items := [] }, [])
    | _ => .error (.lib "json: cannot unmarshal into Go struct field listResponse.items")
  else if keyMatches kv.1 "total" then
    match unmarshalInt st.1.Total kv.2 with
    | some n => .ok ({ st.1 with Total := n }, st.2)
    | none => .error (.lib "json: cannot unmarshal into Go struct field listResponse.total")
  else .ok st

/-- The members of the envelope object decoded in order. -/
def unmarshalListMembers : listResponse × List spaceshipRecordUnion → List (String × Json) →
    Except Error (listResponse × List spaceshipRecordUnion)
  | st, [] => .ok st
  | st, kv :: rest =>
    match unmarshalListMember st kv with
    | .error e => .error e
    | .ok st1 => unmarshalListMembers st1 rest

/-- Model of `json.Unmarshal(body, &lr)` for a fresh `lr listResponse`. -/
def unmarshalListResponse (body : Option Json) : Except Error listResponse :=
  match body with
  | none => .error (.lib "json: syntax error")
  | some (.obj members) =>
    match unmarshalListMembers ({}, []) members with
    | .error e => .error e
    | .ok st => .ok st.1
  | some .null => .ok {}
  | some _ => .error (.lib "json: cannot unmarshal into Go value of type listResponse")

/-! ## `http_helpers.go` -/

/-- The Go values this package passes to `doRequest` as `body`: the map with the keys
`force` and `items` of the upserts, and the slice of wire records of the deletion. -/
inductive Payload where
  | upsert (force : Bool) (items : List spaceshipRecordUnion)
  | items (items : List spaceshipRecordUnion)

/-- The value `json.Marshal` produces for a slice of wire records (`null` for the nil
slice, which is what the loops leave when nothing was appended). -/
def marshalItems (items : List spaceshipRecordUnion) : Json :=
  if items.isEmpty then .null else .arr (items.map marshalRecord)

/-- The value `json.Marshal` produces for a payload (the keys of a map come out sorted). -/
def marshalPayload : Payload → Json
  | .upsert force items => .obj [("force", .bool force), ("items", marshalItems items)]
  | .items items => marshalItems items

/-- An HTTP request as `doRequest` hands it to the client. -/
structure Request where
  method : String
  url : String
  header : List (String × String)
  body : Option Json

/-- What `client.Do` followed by `io.ReadAll` yields. -/
inductive Response where
  /-- The call `client.Do` returned an error. -/
  | failed (detail : String)
  /-- A response arrived and reading its body failed. -/
  | unreadable (status : Int) (detail : String)
  /-- A response arrived and its body was read. -/
  | received (status : Int) (body : Option Json)

/-- The HTTP side of a `Provider`: whether `http.NewRequestWithContext` rejects a method
and URL (and with which error), and what the client answers to a request, given the
requests it was sent before. -/
structure Client where
  requestError : String → String → Option String
  roundTrip : List Request → Request → Response

/-- The three results of `doRequest`. -/
structure Reply where
  body : Option Json
  status : Int
  err : Option Error

/-- The method `getBaseURL`. -/
def getBaseURL (p : Provider) : String :=
  if p.BaseURL ≠ "" then TrimSuffix p.BaseURL "/" else "https://spaceship.dev/api"

/-- The headers `doRequest` sets, in the order and spelling of the source. -/
def requestHeader (p : Provider) (hasBody : Bool) : List (String × String) :=
  (if p.APIKey ≠ "" then [("X-API-Key", p.APIKey)] else [])
    ++ (if p.APISecret ≠ "" then [("X-API-Secret", p.APISecret)] else [])
    ++ (if hasBody then [("Content-Type", "application/json")] else [])
    ++ [("Accept", "application/json")]

/-- The request `doRequest` builds for a method, an endpoint and an optional payload. -/
def buildRequest (p : Provider) (method endpoint : String) (body : Option Payload) : Request :=
  { method := method, url := getBaseURL p ++ endpoint, header := requestHeader p body.isSome,
    body := body.map marshalPayload }

/-- The method `doRequest`.  `sent` lists the requests handed to the client so far; the
second component of the result is that list afterwards.  A `Payload` always marshals, so
the "failed to marshal request body" branch is not reached. -/
def doRequest (p : Provider) (c : Client) (sent : List Request) (method endpoint : String)
    (body : Option Payload) : Reply × List Request :=
  let req := buildRequest p method endpoint body
  match c.requestError req.method req.url with
  | some detail => (⟨none, 0, some (.wrap "failed to create request" (.lib detail))⟩, sent)
  | none =>
    match c.roundTrip sent req with
    | .failed detail =>
      (⟨none, 0, some (.wrap "failed to make API request" (.lib detail))⟩, sent ++ [req])
    | .unreadable status detail =>
      (⟨none, status, some (.wrap "failed to read response body" (.lib detail))⟩, sent ++ [req])
    | .received status respBody =>
      if status ≥ 400 then (⟨respBody, status, some (.api status respBody)⟩, sent ++ [req])
      else (⟨respBody, status, none⟩, sent ++ [req])

/-! ## `provider.go` -/

/-- The record translator of `conversions.go` (not part of the sources at hand), over an
arbitrary type `ρ` of generic records: `toLibdnsRR` and `fromLibdnsRR` return `none` for a
record they cannot represent, `rrType r` is `r.RR().Type`. -/
structure Translator (ρ : Type) where
  toLibdnsRR : spaceshipRecordUnion → String → Option ρ
  fromLibdnsRR : ρ → String → Option spaceshipRecordUnion
  rrType : ρ → String

/-- Outcome of an operation: the returned records or the error, and the requests sent. -/
abbrev Outcome (ρ : Type) := Except Error (List ρ) × List Request

/-- The endpoint of a list request, `fmt.Sprintf("/v1/dns/records/%s?take=%d&skip=%d", ...)`. -/
def listEndpoint (zone : String) (take skip : Int) : String :=
  "/v1/dns/records/" ++ zone ++ "?take=" ++ toString take ++ "&skip=" ++ toString skip

/-- The endpoint of the mutations, `fmt.Sprintf("/v1/dns/records/%s", zone)`. -/
def zoneEndpoint (zone : String) : String := "/v1/dns/records/" ++ zone

/-- The loop `for _, sr := range items { if record := p.toLibdnsRR(sr, zone); record != nil
{ records = append(records, record) } }`, entered with `records`. -/
def appendTranslated {ρ : Type} (T : Translator ρ) (zone : String) :
    List ρ → List spaceshipRecordUnion → List ρ
  | records, [] => records
  | records, sr :: rest =>
    match T.toLibdnsRR sr zone with
    | some record => appendTranslated T zone (records ++ [record]) rest
    | none => appendTranslated T zone records rest

/-- The loop `for _, r := range records { if item := p.fromLibdnsRR(r, zone); item != nil
{ items = append(items, *item) } }`, entered with `items`. -/
def appendItems {ρ : Type} (T : Translator ρ) (zone : String) :
    List spaceshipRecordUnion → List ρ → List spaceshipRecordUnion
  | items, [] => items
  | items, r :: rest =>
    match T.fromLibdnsRR r zone with
    | some item => appendItems T zone (items ++ [item]) rest
    | none => appendItems T zone items rest

/-- The `for` loop of `GetRecords`, entered with the loop variables `skip` and `records`;
`fuel` bounds the number of iterations (`none`: not finished within `fuel`). -/
def getLoop {ρ : Type} (p : Provider) (c : Client) (T : Translator ρ) (zone : String)
    (take : Int) : Nat → Int → List ρ → List Request → Option (Outcome ρ)
  | 0, _, _, _ => none
  | fuel + 1, skip, records, sent =>
    let r := doRequest p c sent "GET" (listEndpoint zone take skip) none
    match r.1.err with
    | some err => some (.error (.wrap "failed to get records" err), r.2)
    | none =>
      match unmarshalListResponse r.1.body with
      | .error err => some (.error (.wrap "failed to unmarshal records response" err), r.2)
      | .ok lr =>
        let records := appendTranslated T zone records lr.Items
        if wrapInt (skip + lr.Items.length) ≥ lr.Total then some (.ok records, r.2)
        else getLoop p c T zone take fuel (wrapInt (skip + take)) records r.2

/-- The method `GetRecords`. -/
def GetRecords {ρ : Type} (p : Provider) (c : Client) (T : Translator ρ) (fuel : Nat)
    (sent : List Request) (zone : String) : Option (Outcome ρ) :=
  match validateCredentials p with
  | some err => some (.error err, sent)
  | none =>
    let zone := TrimSuffix zone "."
    let take : Int := if p.PageSize > 0 then p.PageSize else 100
    getLoop p c T zone take fuel 0 [] sent

/-- The method `AppendRecords`. -/
def AppendRecords {ρ : Type} (p : Provider) (c : Client) (T : Translator ρ)
    (sent : List Request) (zone : String) (records : List ρ) : Outcome ρ :=
  match validateCredentials p with
  | some err => (.error err, sent)
  | none =>
    let zone := TrimSuffix zone "."
    let items := appendItems T zone [] records
    let r := doRequest p c sent "PUT" (zoneEndpoint zone) (some (.upsert false items))
    match r.1.err with
    | some err => (.error (.wrap "failed to append records" err), r.2)
    | none => (.ok (appendTranslated T zone [] items), r.2)

/-- The method `SetRecords`. -/
def SetRecords {ρ : Type} (p : Provider) (c : Client) (T : Translator ρ)
    (sent : List Request) (zone : String) (records : List ρ) : Outcome ρ :=
  match validateCredentials p with
  | some err => (.error err, sent)
  | none =>
    let zone := TrimSuffix zone "."
    let items := appendItems T zone [] records
    let r := doRequest p c sent "PUT" (zoneEndpoint zone) (some (.upsert true items))
    match r.1.err with
    | some err => (.error (.wrap "failed to set records" err), r.2)
    | none => (.ok (appendTranslated T zone [] items), r.2)

/-- The translation loop of `DeleteRecords`, entered with `items`: the wire items, or the
type (`rec.RR().Type`) of the record at which the loop returns the error. -/
def deleteItems {ρ : Type} (T : Translator ρ) (zone : String) :
    List spaceshipRecordUnion → List ρ → Except String (List spaceshipRecordUnion)
  | items, [] => .ok items
  | items, rec :: rest =>
    match T.fromLibdnsRR rec zone with
    | none => .error (T.rrType rec)
    | some item => deleteItems T zone (items ++ [item]) rest

/-- The method `DeleteRecords`. -/
def DeleteRecords {ρ : Type} (p : Provider) (c : Client) (T : Translator ρ)
    (sent : List Request) (zone : String) (records : List ρ) : Outcome ρ :=
  match validateCredentials p with
  | some err => (.error err, sent)
  | none =>
    let zone := TrimSuffix zone "."
    match deleteItems T zone [] records with
    | .error ty => (.error (.msg ("unsupported record type for deletion: " ++ ty)), sent)
    | .ok items =>
      let r := doRequest p c sent "DELETE" (zoneEndpoint zone) (some (.items items))
      match r.1.err with
      | some err => (.error (.wrap "failed to delete records" err), r.2)
      | none => (.ok records, r.2)

/-! ## The server model of the pagination property and data for concrete instances -/

/-- The effective page size of `GetRecords`: `PageSize` when positive, else 100. -/
def effectivePageSize (p : Provider) : Int := if p.PageSize > 0 then p.PageSize else 100

/-- Number of list requests for `n` records in pages of `t`: `max 1 ⌈n / t⌉`. -/
def pageCount (n t : Nat) : Nat := max 1 ((n + t - 1) / t)

/-- The list request for a cleaned zone, a page size and an offset. -/
def listRequest (p : Provider) (zone : String) (take : Int) (skip : Nat) : Request :=
  buildRequest p "GET" (listEndpoint zone take (skip : Int)) none

/-- A server holding the fixed list `L` of wire records behind the client `c`: each list
request for `zone` with `take = t` and `skip = k * t` is accepted and answered, whatever
was sent before, with a status below 400 and a body that decodes to the items
`L[skip .. min (skip + t) N)` and the total `N = L.length`. -/
def servesList (p : Provider) (c : Client) (zone : String) (take : Int)
    (L : List spaceshipRecordUnion) : Prop :=
  ∀ k : Nat, k < pageCount L.length take.toNat → ∀ sent : List Request,
    c.requestError "GET" (listRequest p zone take (k * take.toNat)).url = none ∧
    ∃ (status : Int) (body : Option Json),
      c.roundTrip sent (listRequest p zone take (k * take.toNat)) = .received status body ∧
      status < 400 ∧
      unmarshalListResponse body
        = .ok { Items := (L.drop (k * take.toNat)).take take.toNat, Total := (L.length : Int) }

/-- The bulk upsert request for a cleaned zone, a `force` flag and wire items. -/
def upsertRequest (p : Provider) (zone : String) (force : Bool)
    (items : List spaceshipRecordUnion) : Request :=
  buildRequest p "PUT" (zoneEndpoint zone) (some (.upsert force items))

/-- The delete request for a cleaned zone and wire items. -/
def deleteRequest (p : Provider) (zone : String) (items : List spaceshipRecordUnion) : Request :=
  buildRequest p "DELETE" (zoneEndpoint zone) (some (.items items))

/-- The resource record of `libdns` (`libdns.RR`), used as generic record in the concrete
instances. -/
structure RR where
  Name : String
  TTL : Int
  Type_ : String
  Data : String
  deriving DecidableEq, Repr

/-- A small translator for the concrete instances: it knows the types `A` and `TXT`. -/
def exampleTranslator : Translator RR where
  toLibdnsRR sr _ :=
    if sr.Type_ = "A" then some ⟨sr.Name, sr.TTL, "A", sr.Address⟩
    else if sr.Type_ = "TXT" then some ⟨sr.Name, sr.TTL, "TXT", sr.Value⟩
    else none
  fromLibdnsRR r _ :=
    if r.Type_ = "A" then some { Type_ := "A", Name := r.Name, TTL := r.TTL, Address := r.Data }
    else if r.Type_ = "TXT" then
      some { Type_ := "TXT", Name := r.Name, TTL := r.TTL, Value := r.Data }
    else none
  rrType r := r.Type_

/-- A provider with credentials and the default base URL. -/
def exampleProvider : Provider := { APIKey := "key", APISecret := "secret" }

/-- A client that answers every request with the given status and an empty body. -/
def statusClient (status : Int) : Client where
  requestError _ _ := none
  roundTrip _ _ := .received status none

/-- Five wire records a concrete server holds; the `MX` one has no generic form under
`exampleTranslator`. -/
def exampleRecords : List spaceshipRecordUnion :=
  [{ Type_ := "A", Name := "www", TTL := 300, Address := "192.0.2.1" },
   { Type_ := "TXT", Name := "@", TTL := 300, Value := "v=spf1 -all" },
   { Type_ := "MX", Name := "@", TTL := 300, Exchange := "mail.example.com", Preference := 10 },
   { Type_ := "A", Name := "api", TTL := 60, Address := "192.0.2.2" },
   { Type_ := "A", Name := "ftp", TTL := 60, Address := "192.0.2.3" }]

/-- The list envelope a concrete server sends for the page that starts at `skip`. -/
def examplePage (skip : Nat) : Response :=
  .received 200 (some (.obj
    [("items", .arr (((exampleRecords.drop skip).take 2).map marshalRecord)),
     ("total", .int 5)]))

/-- A concrete server for the zone `example.com` and pages of two records. -/
def exampleListClient : Client where
  requestError _ _ := none
  roundTrip _ req :=
    if req.url = "https://spaceship.dev/api/v1/dns/records/example.com?take=2&skip=0" then
      examplePage 0
    else if req.url = "https://spaceship.dev/api/v1/dns/records/example.com?take=2&skip=2" then
      examplePage 2
    else if req.url = "https://spaceship.dev/api/v1/dns/records/example.com?take=2&skip=4" then
      examplePage 4
    else .received 404 none

/-- A provider with credentials and a page size of two. -/
def pagedProvider : Provider := { APIKey := "key", APISecret := "secret", PageSize := 2 }

/-! ## Facts about the helpers -/

theorem digitChar_isDigit (d : Nat) (h : d < 10) :
    (Nat.digitChar d).isDigit = true ∧ (Nat.digitChar d).toNat - 48 = d := by
  interval_cases d <;> decide

theorem digitsValue_append (xs : List Char) (c : Char) :
    digitsValue (xs ++ [c]) = 10 * digitsValue xs + (c.toNat - 48) := by
  simp [digitsValue, List.foldl_append]

theorem toDigitsCore_spec (fuel : Nat) : ∀ (n : Nat) (ds : List Char), n < fuel →
    ∃ xs, Nat.toDigitsCore 10 fuel n ds = xs ++ ds ∧ xs ≠ [] ∧
      (∀ c ∈ xs, c.isDigit = true) ∧ digitsValue xs = n := by
  induction fuel with
  | zero => intro n ds h; omega
  | succ fuel ih =>
    intro n ds h
    have hd := digitChar_isDigit (n % 10) (Nat.mod_lt _ (by decide))
    by_cases h0 : n / 10 = 0
    · refine ⟨[Nat.digitChar (n % 10)], ?_, by simp, ?_, ?_⟩
      · simp [Nat.toDigitsCore, h0]
      · intro c hc
        simp only [List.mem_singleton] at hc
        subst hc; exact hd.1
      · have : n % 10 = n := by omega
        simp only [digitsValue, List.foldl_cons, List.foldl_nil, hd.2]
        omega
    · obtain ⟨xs, hxs, hne, hall, hval⟩ := ih (n / 10) (Nat.digitChar (n % 10) :: ds) (by omega)
      refine ⟨xs ++ [Nat.digitChar (n % 10)], ?_, by simp, ?_, ?_⟩
      · simp [Nat.toDigitsCore, h0, hxs]
      · intro c hc
        rcases List.mem_append.mp hc with hc | hc
        · exact hall c hc
        · simp only [List.mem_singleton] at hc
          subst hc; exact hd.1
      · rw [digitsValue_append, hval, hd.2]
        omega

theorem repr_digits (m : Nat) :
    (toString m).data ≠ [] ∧ (∀ c ∈ (toString m).data, c.isDigit = true) ∧
      digitsValue (toString m).data = m := by
  obtain ⟨xs, hxs, hne, hall, hval⟩ := toDigitsCore_spec (m + 1) m [] (by omega)
  have hdata : (toString m).data = xs := by
    show (Nat.repr m).data = xs
    simp [Nat.repr, Nat.toDigits, hxs, List.asString]
  rw [hdata]
  exact ⟨hne, hall, hval⟩

theorem parseDigits_repr (m : Nat) : parseDigits (toString m).data = some m := by
  obtain ⟨hne, hall, hval⟩ := repr_digits m
  have hall2 : (toString m).data.all Char.isDigit = true := List.all_eq_true.mpr hall
  simp [parseDigits, hne, hall2, hval]

theorem repr_head (m : Nat) :
    ∃ c rest, (toString m).data = c :: rest ∧ c ≠ '-' ∧ c ≠ '+' ∧ c ≠ '_' := by
  obtain ⟨hne, hall, -⟩ := repr_digits m
  cases hd : (toString m).data with
  | nil => exact absurd hd hne
  | cons c rest =>
    have hc : c.isDigit = true := hall c (by rw [hd]; exact List.mem_cons_self _ _)
    refine ⟨c, rest, rfl, ?_, ?_, ?_⟩ <;> (rintro rfl; revert hc; decide)

theorem Atoi_natRepr (m : Nat) (h : inInt64 (m : Int)) : Atoi (toString m) = some (m : Int) := by
  obtain ⟨c, rest, hd, h1, h2, -⟩ := repr_head m
  have hp := parseDigits_repr m
  rw [hd] at hp
  simp [Atoi, hd, h1, h2, hp, h]

theorem Atoi_negRepr (m : Nat) (h : inInt64 (-(m : Int))) :
    Atoi ("-" ++ toString m) = some (-(m : Int)) := by
  have hp := parseDigits_repr m
  have hd : ("-" ++ toString m).data = '-' :: (toString m).data := by
    simp [String.data_append]
  simp [Atoi, hd, hp, h]

theorem Atoi_toString (v : Int) (h : inInt64 v) : Atoi (toString v) = some v := by
  cases v with
  | ofNat m => exact Atoi_natRepr m h
  | negSucc m =>
    have e : Int.negSucc m = -((m + 1 : Nat) : Int) := rfl
    rw [e] at h ⊢
    exact Atoi_negRepr (m + 1) h

theorem TrimPrefix_underscore_append (s : String) : TrimPrefix ("_" ++ s) "_" = s := by
  have hd : ("_" ++ s).data = '_' :: s.data := by simp [String.data_append]
  simp [TrimPrefix, HasPrefix, hd]

theorem TrimPrefix_of_not_HasPrefix (s pre : String) (h : HasPrefix s pre = false) :
    TrimPrefix s pre = s := by
  simp [TrimPrefix, h]

theorem TrimPrefix_toString (v : Int) : TrimPrefix (toString v) "_" = toString v := by
  apply TrimPrefix_of_not_HasPrefix
  cases v with
  | ofNat m =>
    obtain ⟨c, rest, hd, -, -, h3⟩ := repr_head m
    have hd2 : (toString (Int.ofNat m)).data = c :: rest := hd
    have h4 : ¬ ('_' = c) := fun e => h3 e.symm
    show ['_'].isPrefixOf (toString (Int.ofNat m)).data = false
    rw [hd2]
    simp [List.isPrefixOf, h4]
  | negSucc m =>
    have hd : (toString (Int.negSucc m)).data = '-' :: (toString (m + 1)).data := by
      show ("-" ++ toString (m + 1)).data = _
      simp [String.data_append]
    show ['_'].isPrefixOf (toString (Int.negSucc m)).data = false
    rw [hd]
    simp [List.isPrefixOf]

theorem unmarshalPort_str (raw : List (String × Json)) (s : String) (cp : Option PortValue)
    (ci : Int) (h : rawGet raw "port" = some (.str s)) :
    unmarshalPort raw cp ci = (some (.str s), (Atoi (TrimPrefix s "_")).getD ci) := by
  unfold unmarshalPort
  rw [h]
  simp only [unmarshalInt, unmarshalString]
  by_cases hp : HasPrefix s "_" = true
  · rw [if_pos hp]
    cases Atoi (TrimPrefix s "_") <;> rfl
  · rw [if_neg hp, TrimPrefix_of_not_HasPrefix s "_" (by simpa using hp)]
    cases Atoi s <;> rfl

theorem Atoi_of_not_numeral (s : String) (h : isDecimalNumeral s.data = false) : Atoi s = none := by
  unfold Atoi
  cases hd : s.data with
  | nil => simp [parseDigits]
  | cons c rest =>
    rw [hd] at h
    by_cases hs : c = '-' ∨ c = '+'
    · have hp : parseDigits rest = none := by
        by_cases hr : rest = []
        · simp [parseDigits, hr]
        · have h2 : rest.all Char.isDigit = false := by
            simpa [isDecimalNumeral, hs, List.isEmpty_iff, hr] using h
          simp only [parseDigits, h2]; simp
      simp [hs, hp]
    · have h2 : (c :: rest).all Char.isDigit = false := by
        simpa [isDecimalNumeral, hs] using h
      have hp : parseDigits (c :: rest) = none := by
        simp only [parseDigits, h2]; simp
      simp [hs, hp]

theorem Atoi_of_numeral (s : String) (h : isDecimalNumeral s.data = true)
    (hr : inInt64 (numeralValue s.data)) : Atoi s = some (numeralValue s.data) := by
  unfold Atoi
  cases hd : s.data with
  | nil => rw [hd] at h; simp [isDecimalNumeral] at h
  | cons c rest =>
    rw [hd] at h hr
    by_cases hm : c = '-'
    · subst hm
      have h2 : rest ≠ [] ∧ rest.all Char.isDigit = true := by
        simpa [isDecimalNumeral, List.isEmpty_iff] using h
      have hp : parseDigits rest = some (digitsValue rest) := by
        simp only [parseDigits, h2.2]; simp [h2.1]
      have hv : numeralValue ('-' :: rest) = -(digitsValue rest : Int) := by simp [numeralValue]
      rw [hv] at hr
      simp [hp, hv, hr]
    · by_cases hpl : c = '+'
      · subst hpl
        have h2 : rest ≠ [] ∧ rest.all Char.isDigit = true := by
          simpa [isDecimalNumeral, List.isEmpty_iff] using h
        have hp : parseDigits rest = some (digitsValue rest) := by
          simp only [parseDigits, h2.2]; simp [h2.1]
        have hv : numeralValue ('+' :: rest) = (digitsValue rest : Int) := by
          simp [numeralValue]
        rw [hv] at hr
        simp [hp, hv, hr]
      · have h2 : (c :: rest).all Char.isDigit = true := by
          simpa [isDecimalNumeral, hm, hpl] using h
        have hp : parseDigits (c :: rest) = some (digitsValue (c :: rest)) := by
          simp only [parseDigits, h2]; simp
        have hv : numeralValue (c :: rest) = (digitsValue (c :: rest) : Int) := by
          simp [numeralValue, hm, hpl]
        rw [hv] at hr
        simp [hm, hpl, hp, hv, hr]

theorem rawGet_eq_none_iff (raw : List (String × Json)) (key : String) :
    rawGet raw key = none ↔ ∀ kv ∈ raw, kv.1 ≠ key := by
  unfold rawGet
  rw [List.lookup_eq_none_iff]
  constructor
  · intro h kv hkv e
    have := h kv (List.mem_reverse.mpr hkv)
    simp [e] at this
  · intro h kv hkv
    have := h kv (List.mem_reverse.mp hkv)
    simpa [bne_iff_ne] using fun e => this e.symm

/-! ## The wire-record codec -/

theorem UnmarshalJSON_object (s : spaceshipRecordUnion) (raw : List (String × Json)) :
    UnmarshalJSON s (some (.obj raw)) = .ok (decodeFields s raw) := rfl

theorem UnmarshalJSON_error_not_object (s : spaceshipRecordUnion) (data : Option Json)
    (e : Error) (h : UnmarshalJSON s data = .error e) : ∀ raw, data ≠ some (.obj raw) := by
  intro raw hd
  subst hd
  simp [UnmarshalJSON] at h

/-- C2.  Normalized port decoding.  For an object whose `port` is the integer `n` (a Go
`int`) the decoded `PortInt` is `n` and `Port` holds the integer; for a `port` that is the
decimal rendering of `v`, with or without one leading `_`, `PortInt` is `v`; more generally
`PortInt` is the value of the numeral left after removing one leading `_`; it stays `0`
when that remainder is not a decimal numeral.  The integer form is tried first: a `null`,
which both forms accept, is stored as the integer `0`. -/
theorem port_decoding (raw : List (String × Json)) :
    (∀ n : Int, inInt64 n → rawGet raw "port" = some (.int n) →
      ∃ r, decodeRecord (some (.obj raw)) = .ok r ∧ r.PortInt = n ∧ r.Port = some (.int n)) ∧
    (∀ (v : Int) (s : String), inInt64 v → (s = toString v ∨ s = "_" ++ toString v) →
      rawGet raw "port" = some (.str s) →
      ∃ r, decodeRecord (some (.obj raw)) = .ok r ∧ r.PortInt = v ∧ r.Port = some (.str s)) ∧
    (∀ s : String, isDecimalNumeral (TrimPrefix s "_").data = true →
      inInt64 (numeralValue (TrimPrefix s "_").data) →
      rawGet raw "port" = some (.str s) →
      ∃ r, decodeRecord (some (.obj raw)) = .ok r ∧
        r.PortInt = numeralValue (TrimPrefix s "_").data ∧ r.Port = some (.str s)) ∧
    (∀ s : String, isDecimalNumeral (TrimPrefix s "_").data = false →
      rawGet raw "port" = some (.str s) →
      ∃ r, decodeRecord (some (.obj raw)) = .ok r ∧ r.PortInt = 0) ∧
    (rawGet raw "port" = some .null →
      ∃ r, decodeRecord (some (.obj raw)) = .ok r ∧ r.PortInt = 0 ∧ r.Port = some (.int 0)) := by
  refine ⟨?_, ?_, ?_, ?_, ?_⟩
  · intro n hn h
    refine ⟨_, rfl, ?_, ?_⟩ <;> simp [decodeFields, unmarshalPort, h, unmarshalInt, hn]
  · intro v s hv hs h
    have ha : Atoi (TrimPrefix s "_") = some v := by
      rcases hs with rfl | rfl
      · rw [TrimPrefix_toString]; exact Atoi_toString v hv
      · rw [TrimPrefix_underscore_append]; exact Atoi_toString v hv
    refine ⟨_, rfl, ?_, ?_⟩ <;> simp [decodeFields, unmarshalPort_str raw s _ _ h, ha]
  · intro s hs hr h
    have ha := Atoi_of_numeral (TrimPrefix s "_") hs hr
    refine ⟨_, rfl, ?_, ?_⟩ <;> simp [decodeFields, unmarshalPort_str raw s _ _ h, ha]
  · intro s hs h
    have ha := Atoi_of_not_numeral (TrimPrefix s "_") hs
    refine ⟨_, rfl, ?_⟩
    simp [decodeFields, unmarshalPort_str raw s _ _ h, ha]
  · intro h
    refine ⟨_, rfl, ?_, ?_⟩ <;> simp [decodeFields, unmarshalPort, h, unmarshalInt]

/-- Instance of C2: the port `"_443"` decodes to the normalized port 443. -/
theorem port_decoding_witness :
    ∃ r, decodeRecord (some (.obj [("type", .str "SRV"), ("port", .str "_443")])) = .ok r ∧
      r.PortInt = 443 ∧ r.Port = some (.str "_443") :=
  (port_decoding [("type", .str "SRV"), ("port", .str "_443")]).2.1 443 "_443"
    (by decide) (Or.inr (by decide)) rfl

/-- C5.  CAA flag presence.  An object without a `flag` member decodes to a nil `Flag`; an
object whose `flag` is the integer `n` (a Go `int`, zero included) decodes to a `Flag`
holding `n`; so the two decode to different records. -/
theorem flag_presence :
    (∀ raw : List (String × Json), (∀ kv ∈ raw, kv.1 ≠ "flag") →
      ∃ r, decodeRecord (some (.obj raw)) = .ok r ∧ r.Flag = none) ∧
    (∀ (raw : List (String × Json)) (n : Int), inInt64 n → rawGet raw "flag" = some (.int n) →
      ∃ r, decodeRecord (some (.obj raw)) = .ok r ∧ r.Flag = some n) ∧
    (∀ (absent zero : List (String × Json)) (r1 r2 : spaceshipRecordUnion),
      (∀ kv ∈ absent, kv.1 ≠ "flag") → rawGet zero "flag" = some (.int 0) →
      decodeRecord (some (.obj absent)) = .ok r1 → decodeRecord (some (.obj zero)) = .ok r2 →
      r1.Flag = none ∧ r2.Flag = some 0 ∧ r1 ≠ r2) := by
  have habs : ∀ raw : List (String × Json), (∀ kv ∈ raw, kv.1 ≠ "flag") →
      (decodeFields {} raw).Flag = none := by
    intro raw h
    have h2 := (rawGet_eq_none_iff raw "flag").mpr h
    simp [decodeFields, unmarshalFlag, h2]
  have hint : ∀ (raw : List (String × Json)) (n : Int), inInt64 n →
      rawGet raw "flag" = some (.int n) → (decodeFields {} raw).Flag = some n := by
    intro raw n hn h
    simp [decodeFields, unmarshalFlag, h, unmarshalInt, hn]
  refine ⟨fun raw h => ⟨_, rfl, habs raw h⟩, fun raw n hn h => ⟨_, rfl, hint raw n hn h⟩, ?_⟩
  intro absent zero r1 r2 h1 h2 e1 e2
  have e1b : decodeFields {} absent = r1 := by
    simpa [decodeRecord, UnmarshalJSON] using e1
  have e2b : decodeFields {} zero = r2 := by
    simpa [decodeRecord, UnmarshalJSON] using e2
  have f1 := habs absent h1
  have f2 := hint zero 0 (by decide) h2
  rw [e1b] at f1
  rw [e2b] at f2
  refine ⟨f1, f2, ?_⟩
  intro e
  rw [e, f2] at f1
  exact absurd f1 (by simp)

/-- Instance of C5: `flag: 0` decodes to an explicit zero. -/
theorem flag_presence_witness :
    ∃ r, decodeRecord (some (.obj [("type", .str "CAA"), ("flag", .int 0)])) = .ok r ∧
      r.Flag = some 0 :=
  flag_presence.2.1 [("type", .str "CAA"), ("flag", .int 0)] 0 (by decide) rfl

theorem mem_keys_omitemptyString (k key v : String) :
    k ∈ (omitemptyString key v).map Prod.fst ↔ k = key ∧ v ≠ "" := by
  unfold omitemptyString
  split <;> simp [*]

theorem mem_keys_omitemptyInt (k key : String) (v : Int) :
    k ∈ (omitemptyInt key v).map Prod.fst ↔ k = key ∧ v ≠ 0 := by
  unfold omitemptyInt
  split <;> simp [*]

theorem mem_keys_omitemptyPort (k key : String) (v : Option PortValue) :
    k ∈ (omitemptyPort key v).map Prod.fst ↔ k = key ∧ v ≠ none := by
  cases v <;> simp [omitemptyPort]

theorem mem_keys_omitemptyFlag (k key : String) (v : Option Int) :
    k ∈ (omitemptyFlag key v).map Prod.fst ↔ k = key ∧ v ≠ none := by
  cases v <;> simp [omitemptyFlag]

theorem mem_marshalKeys (s : spaceshipRecordUnion) (k : String) :
    k ∈ marshalKeys s ↔
      k = "type" ∨ k = "name" ∨ (k = "ttl" ∧ s.TTL ≠ 0) ∨ (k = "address" ∧ s.Address ≠ "") ∨
      (k = "cname" ∧ s.Cname ≠ "") ∨ (k = "value" ∧ s.Value ≠ "") ∨
      (k = "exchange" ∧ s.Exchange ≠ "") ∨ (k = "preference" ∧ s.Preference ≠ 0) ∨
      (k = "service" ∧ s.Service ≠ "") ∨ (k = "protocol" ∧ s.Protocol ≠ "") ∨
      (k = "priority" ∧ s.Priority ≠ 0) ∨ (k = "weight" ∧ s.Weight ≠ 0) ∨
      (k = "port" ∧ s.Port ≠ none) ∨ (k = "target" ∧ s.Target ≠ "") ∨
      (k = "nameserver" ∧ s.Nameserver ≠ "") ∨ (k = "pointer" ∧ s.Pointer ≠ "") ∨
      (k = "flag" ∧ s.Flag ≠ none) ∨ (k = "tag" ∧ s.Tag ≠ "") ∨
      (k = "svcPriority" ∧ s.SvcPriority ≠ 0) ∨ (k = "svcTarget" ∧ s.SvcTarget ≠ "") ∨
      (k = "targetName" ∧ s.TargetName ≠ "") ∨ (k = "svcParams" ∧ s.SvcParams ≠ "") := by
  simp only [marshalKeys, marshalMembers, List.map_append, List.mem_append,
    mem_keys_omitemptyString, mem_keys_omitemptyInt, mem_keys_omitemptyPort,
    mem_keys_omitemptyFlag, List.map_cons, List.map_nil, List.mem_cons, List.mem_singleton,
    List.not_mem_nil, or_false, or_assoc]

/-- C9, as stated, fails: the port `true` parses neither as an integer nor as a string,
and the decoded record keeps nothing of it (`Port` is nil, so re-encoding emits no `port`). -/
theorem raw_port_not_preserved :
    rawGet [("type", .str "SRV"), ("port", .bool true)] "port" = some (.bool true) ∧
    unmarshalInt 0 (.bool true) = none ∧ unmarshalString "" (.bool true) = none ∧
    ∃ r, decodeRecord (some (.obj [("type", .str "SRV"), ("port", .bool true)])) = .ok r ∧
      r.PortInt = 0 ∧ r.Port = none ∧ "port" ∉ marshalKeys r :=
  ⟨rfl, rfl, rfl, _, rfl, rfl, rfl, by decide⟩

/-- C9, amended.  When `port` is a JSON string that does not parse as a number (with or
without one leading `_`), `PortInt` stays `0`, `Port` holds the string as received and
re-encoding the record emits it; when `port` is neither an integer, a string nor `null`
(it decodes neither into an `int` nor into a `string`), both `Port` and `PortInt` stay
unset and re-encoding emits no `port`. -/
theorem raw_port_preserved_for_strings (raw : List (String × Json)) :
    (∀ s : String, rawGet raw "port" = some (.str s) → Atoi (TrimPrefix s "_") = none →
      ∃ r, decodeRecord (some (.obj raw)) = .ok r ∧ r.PortInt = 0 ∧ r.Port = some (.str s) ∧
        ("port", Json.str s) ∈ marshalMembers r) ∧
    (∀ b : Json, rawGet raw "port" = some b → unmarshalInt 0 b = none →
      unmarshalString "" b = none →
      ∃ r, decodeRecord (some (.obj raw)) = .ok r ∧ r.PortInt = 0 ∧ r.Port = none ∧
        "port" ∉ marshalKeys r) := by
  constructor
  · intro s h ha
    have hp : (decodeFields {} raw).Port = some (.str s) := by
      simp [decodeFields, unmarshalPort_str raw s _ _ h]
    refine ⟨_, rfl, ?_, hp, ?_⟩
    · simp [decodeFields, unmarshalPort_str raw s _ _ h, ha]
    · simp [marshalMembers, hp, omitemptyPort, PortValue.toJson]
  · intro b h h1 h2
    have hp : (decodeFields {} raw).Port = none := by
      simp [decodeFields, unmarshalPort, h, h1, h2]
    refine ⟨_, rfl, ?_, hp, ?_⟩
    · simp [decodeFields, unmarshalPort, h, h1, h2]
    · rw [mem_marshalKeys]
      simp [hp]

/-- Instance of the amended C9: the port `"http"` is kept as received. -/
theorem raw_port_preserved_for_strings_witness :
    ∃ r, decodeRecord (some (.obj [("type", .str "SRV"), ("port", .str "http")])) = .ok r ∧
      r.PortInt = 0 ∧ r.Port = some (.str "http") ∧
      ("port", Json.str "http") ∈ marshalMembers r :=
  (raw_port_preserved_for_strings [("type", .str "SRV"), ("port", .str "http")]).1 "http"
    rfl (by decide)

/-- C8, as stated, fails: a record whose `Port` holds the integer zero (what decoding
`"port": 0` leaves) has a zero port value, and its encoding contains the key `port`. -/
theorem zero_port_is_emitted :
    (∃ r, decodeRecord (some (.obj [("type", .str "SRV"), ("name", .str "_sip._tcp"),
        ("port", .int 0)])) = .ok r ∧ r.Port = some (.int 0) ∧ r.PortInt = 0 ∧
      "port" ∈ marshalKeys r) ∧
    ("port", Json.int 0) ∈ marshalMembers { Type_ := "SRV", Port := some (.int 0) } ∧
    ("port", Json.str "") ∈ marshalMembers { Type_ := "SRV", Port := some (.str "") } :=
  ⟨⟨_, rfl, rfl, rfl, by decide⟩, by simp [marshalMembers, omitemptyPort, PortValue.toJson],
    by simp [marshalMembers, omitemptyPort, PortValue.toJson]⟩

/-- C8, amended.  The encoding of a wire record always has the keys `type` and `name`,
has no key besides the twenty-two tagged ones and does not depend on `PortInt`; it has the
key of a string field exactly when the string is non-empty, of an integer field (`ttl`,
`preference`, `priority`, `weight`, `svcPriority`) exactly when the integer is non-zero,
`flag` exactly when `Flag` is non-nil, and `port` exactly when `Port` is non-nil (so a
`Port` holding the integer zero or the empty string is emitted). -/
theorem encoding_keys (s : spaceshipRecordUnion) :
    "type" ∈ marshalKeys s ∧ "name" ∈ marshalKeys s ∧
    (∀ k ∈ marshalKeys s, k ∈ ["type", "name", "ttl", "address", "cname", "value", "exchange",
      "preference", "service", "protocol", "priority", "weight", "port", "target",
      "nameserver", "pointer", "flag", "tag", "svcPriority", "svcTarget", "targetName",
      "svcParams"]) ∧
    (∀ n : Int, marshalMembers { s with PortInt := n } = marshalMembers s) ∧
    ("ttl" ∈ marshalKeys s ↔ s.TTL ≠ 0) ∧
    ("address" ∈ marshalKeys s ↔ s.Address ≠ "") ∧
    ("cname" ∈ marshalKeys s ↔ s.Cname ≠ "") ∧
    ("value" ∈ marshalKeys s ↔ s.Value ≠ "") ∧
    ("exchange" ∈ marshalKeys s ↔ s.Exchange ≠ "") ∧
    ("preference" ∈ marshalKeys s ↔ s.Preference ≠ 0) ∧
    ("service" ∈ marshalKeys s ↔ s.Service ≠ "") ∧
    ("protocol" ∈ marshalKeys s ↔ s.Protocol ≠ "") ∧
    ("priority" ∈ marshalKeys s ↔ s.Priority ≠ 0) ∧
    ("weight" ∈ marshalKeys s ↔ s.Weight ≠ 0) ∧
    ("port" ∈ marshalKeys s ↔ s.Port ≠ none) ∧
    ("target" ∈ marshalKeys s ↔ s.Target ≠ "") ∧
    ("nameserver" ∈ marshalKeys s ↔ s.Nameserver ≠ "") ∧
    ("pointer" ∈ marshalKeys s ↔ s.Pointer ≠ "") ∧
    ("flag" ∈ marshalKeys s ↔ s.Flag ≠ none) ∧
    ("tag" ∈ marshalKeys s ↔ s.Tag ≠ "") ∧
    ("svcPriority" ∈ marshalKeys s ↔ s.SvcPriority ≠ 0) ∧
    ("svcTarget" ∈ marshalKeys s ↔ s.SvcTarget ≠ "") ∧
    ("targetName" ∈ marshalKeys s ↔ s.TargetName ≠ "") ∧
    ("svcParams" ∈ marshalKeys s ↔ s.SvcParams ≠ "") := by
  refine ⟨?_, ?_, ?_, ?_, ?_, ?_, ?_, ?_, ?_, ?_, ?_, ?_, ?_, ?_, ?_, ?_, ?_, ?_, ?_, ?_, ?_,
    ?_, ?_, ?_⟩
  case refine_3 =>
    intro k hk
    rw [mem_marshalKeys] at hk
    simp only [List.mem_cons, List.mem_singleton, List.not_mem_nil, or_false]
    tauto
  case refine_4 => intro n; rfl
  all_goals (rw [mem_marshalKeys]; simp)

/-! ## The zone record manager -/

theorem appendItems_eq {ρ : Type} (T : Translator ρ) (zone : String) (records : List ρ) :
    ∀ items, appendItems T zone items records
      = items ++ records.filterMap (fun r => T.fromLibdnsRR r zone) := by
  induction records with
  | nil => intro items; simp [appendItems]
  | cons r rest ih =>
    intro items
    cases h : T.fromLibdnsRR r zone with
    | none => simp [appendItems, h, ih, List.filterMap_cons]
    | some item => simp [appendItems, h, ih, List.filterMap_cons]

theorem appendTranslated_eq {ρ : Type} (T : Translator ρ) (zone : String)
    (items : List spaceshipRecordUnion) :
    ∀ records, appendTranslated T zone records items
      = records ++ items.filterMap (fun sr => T.toLibdnsRR sr zone) := by
  induction items with
  | nil => intro records; simp [appendTranslated]
  | cons sr rest ih =>
    intro records
    cases h : T.toLibdnsRR sr zone with
    | none => simp [appendTranslated, h, ih, List.filterMap_cons]
    | some record => simp [appendTranslated, h, ih, List.filterMap_cons]

theorem deleteItems_first_untranslatable {ρ : Type} (T : Translator ρ) (zone : String)
    (bad : ρ) (post : List ρ) (hbad : T.fromLibdnsRR bad zone = none) :
    ∀ (pre : List ρ) (items : List spaceshipRecordUnion),
      (∀ r ∈ pre, T.fromLibdnsRR r zone ≠ none) →
      deleteItems T zone items (pre ++ bad :: post) = .error (T.rrType bad) := by
  intro pre
  induction pre with
  | nil => intro items _; simp [deleteItems, hbad]
  | cons r rest ih =>
    intro items h
    cases hr : T.fromLibdnsRR r zone with
    | none => exact absurd hr (h r (List.mem_cons_self _ _))
    | some item =>
      simp only [List.cons_append, deleteItems, hr]
      exact ih _ (fun x hx => h x (List.mem_cons_of_mem _ hx))

theorem exists_first_untranslatable {ρ : Type} (T : Translator ρ) (zone : String) :
    ∀ records : List ρ, (∃ r ∈ records, T.fromLibdnsRR r zone = none) →
      ∃ pre bad post, records = pre ++ bad :: post ∧
        (∀ r ∈ pre, T.fromLibdnsRR r zone ≠ none) ∧ T.fromLibdnsRR bad zone = none := by
  intro records
  induction records with
  | nil => rintro ⟨r, hr, -⟩; exact absurd hr (List.not_mem_nil _)
  | cons x rest ih =>
    rintro ⟨r, hr, hnone⟩
    by_cases hx : T.fromLibdnsRR x zone = none
    · exact ⟨[], x, rest, rfl, fun _ h => absurd h (List.not_mem_nil _), hx⟩
    · have hr2 : r ∈ rest := by
        rcases List.mem_cons.mp hr with rfl | h
        · exact absurd hnone hx
        · exact h
      obtain ⟨pre, bad, post, e, hpre, hbad⟩ := ih ⟨r, hr2, hnone⟩
      refine ⟨x :: pre, bad, post, by simp [e], ?_, hbad⟩
      intro y hy
      rcases List.mem_cons.mp hy with rfl | h
      · exact hx
      · exact hpre y h

/-- C3.  `DeleteRecords` fails fast.  With valid credentials, when the translator has no
wire form for some input record, the input splits at the first such record `bad`,
`DeleteRecords` returns the error "unsupported record type for deletion: T" with `T` the
type of `bad` and no records, and the list of requests sent is unchanged: nothing is sent,
not even for the records before `bad`. -/
theorem delete_fails_fast {ρ : Type} (p : Provider) (c : Client) (T : Translator ρ)
    (sent : List Request) (zone : String) (records : List ρ)
    (hcred : p.APIKey ≠ "" ∧ p.APISecret ≠ "")
    (hbad : ∃ r ∈ records, T.fromLibdnsRR r (TrimSuffix zone ".") = none) :
    ∃ pre bad post, records = pre ++ bad :: post ∧
      (∀ r ∈ pre, T.fromLibdnsRR r (TrimSuffix zone ".") ≠ none) ∧
      T.fromLibdnsRR bad (TrimSuffix zone ".") = none ∧
      DeleteRecords p c T sent zone records
        = (.error (.msg ("unsupported record type for deletion: " ++ T.rrType bad)), sent) := by
  obtain ⟨pre, bad, post, e, hpre, hb⟩ := exists_first_untranslatable T _ records hbad
  refine ⟨pre, bad, post, e, hpre, hb, ?_⟩
  have hv : validateCredentials p = none := by simp [validateCredentials, hcred.1, hcred.2]
  have hd := deleteItems_first_untranslatable T _ bad post hb pre [] hpre
  simp only [DeleteRecords, hv, e, hd]

/-- Instance of C3: an `A` record, then an `MX` record the example translator does not
know, then a `TXT` record. -/
theorem delete_fails_fast_witness :
    ∃ pre bad post,
      [(⟨"www", 300, "A", "192.0.2.1"⟩ : RR), ⟨"@", 300, "MX", "mail"⟩, ⟨"@", 300, "TXT", "v"⟩]
        = pre ++ bad :: post ∧
      (∀ r ∈ pre, exampleTranslator.fromLibdnsRR r (TrimSuffix "example.com." ".") ≠ none) ∧
      exampleTranslator.fromLibdnsRR bad (TrimSuffix "example.com." ".") = none ∧
      DeleteRecords exampleProvider (statusClient 204) exampleTranslator [] "example.com."
          [⟨"www", 300, "A", "192.0.2.1"⟩, ⟨"@", 300, "MX", "mail"⟩, ⟨"@", 300, "TXT", "v"⟩]
        = (.error (.msg ("unsupported record type for deletion: "
            ++ exampleTranslator.rrType bad)), []) :=
  delete_fails_fast exampleProvider (statusClient 204) exampleTranslator [] "example.com."
    [⟨"www", 300, "A", "192.0.2.1"⟩, ⟨"@", 300, "MX", "mail"⟩, ⟨"@", 300, "TXT", "v"⟩]
    (by decide) ⟨⟨"@", 300, "MX", "mail"⟩, by decide, by decide⟩

theorem doRequest_received (p : Provider) (c : Client) (sent : List Request)
    (method endpoint : String) (body : Option Payload) (status : Int) (respBody : Option Json)
    (h1 : c.requestError method (buildRequest p method endpoint body).url = none)
    (h2 : c.roundTrip sent (buildRequest p method endpoint body) = .received status respBody) :
    doRequest p c sent method endpoint body
      = (if status ≥ 400 then ⟨respBody, status, some (.api status respBody)⟩
          else ⟨respBody, status, none⟩, sent ++ [buildRequest p method endpoint body]) := by
  have h1b : c.requestError (buildRequest p method endpoint body).method
      (buildRequest p method endpoint body).url = none := h1
  unfold doRequest
  simp only [h1b, h2]
  split <;> rfl

theorem validateCredentials_ok (p : Provider) (h : p.APIKey ≠ "" ∧ p.APISecret ≠ "") :
    validateCredentials p = none := by
  simp [validateCredentials, h.1, h.2]

theorem deleteItems_all_translatable {ρ : Type} (T : Translator ρ) (zone : String) :
    ∀ (records : List ρ) (items : List spaceshipRecordUnion),
      (∀ r ∈ records, T.fromLibdnsRR r zone ≠ none) →
      deleteItems T zone items records
        = .ok (items ++ records.filterMap (fun r => T.fromLibdnsRR r zone)) := by
  intro records
  induction records with
  | nil => intro items _; simp [deleteItems]
  | cons r rest ih =>
    intro items h
    cases hr : T.fromLibdnsRR r zone with
    | none => exact absurd hr (h r (List.mem_cons_self _ _))
    | some item =>
      simp only [deleteItems, hr, List.filterMap_cons]
      rw [ih _ (fun x hx => h x (List.mem_cons_of_mem _ hx))]
      simp

/-- C4.  `AppendRecords` (`force = false`) and `SetRecords` (`force = true`) drop the
records without a wire form and return what was sent.  Let `items` be the translations of
the translatable inputs, in input order, and `req` the request `PUT /v1/dns/records/<zone>`
with the credential, content-type and accept headers and the body
`{"force": force, "items": [...]}` whose `items` are the encodings of `items` (`null` when
there is none).  With valid credentials, when `req` is accepted and answered with a status
below 400, the operation sends exactly `req` and returns the wire->generic translation of
`items`, not the full input. -/
theorem upsert_returns_sent {ρ : Type} (p : Provider) (c : Client) (T : Translator ρ)
    (sent : List Request) (zone : String) (records : List ρ) (force : Bool) (status : Int)
    (respBody : Option Json) (items : List spaceshipRecordUnion) (req : Request)
    (hcred : p.APIKey ≠ "" ∧ p.APISecret ≠ "")
    (hitems : items = records.filterMap (fun r => T.fromLibdnsRR r (TrimSuffix zone ".")))
    (hreq : req =
      { method := "PUT"
        url := getBaseURL p ++ ("/v1/dns/records/" ++ TrimSuffix zone ".")
        header := [("X-API-Key", p.APIKey), ("X-API-Secret", p.APISecret),
          ("Content-Type", "application/json"), ("Accept", "application/json")]
        body := some (.obj [("force", .bool force),
          ("items", if items.isEmpty then Json.null else Json.arr (items.map marshalRecord))]) })
    (haccept : c.requestError "PUT" req.url = none)
    (hresp : c.roundTrip sent req = .received status respBody)
    (hstatus : status < 400) :
    (if force then SetRecords p c T sent zone records else AppendRecords p c T sent zone records)
      = (.ok (items.filterMap (fun it => T.toLibdnsRR it (TrimSuffix zone "."))),
          sent ++ [req]) := by
  have hv := validateCredentials_ok p hcred
  have hns : ¬ status ≥ 400 := by omega
  have hb : buildRequest p "PUT" (zoneEndpoint (TrimSuffix zone "."))
      (some (.upsert force items)) = req := by
    rw [hreq]
    simp [buildRequest, requestHeader, hcred.1, hcred.2, zoneEndpoint, marshalPayload,
      marshalItems]
  have hd := doRequest_received p c sent "PUT" (zoneEndpoint (TrimSuffix zone "."))
    (some (.upsert force items)) status respBody (by rw [hb]; exact haccept)
    (by rw [hb]; exact hresp)
  rw [hb] at hd
  subst hitems
  cases force with
  | false =>
    simp only [AppendRecords, hv, appendItems_eq, appendTranslated_eq, List.nil_append, hd,
      if_neg hns, Bool.false_eq_true, if_false]
  | true =>
    simp only [SetRecords, hv, appendItems_eq, appendTranslated_eq, List.nil_append, hd,
      if_neg hns, if_true]

/-- Instance of C4: appending, and setting, an `A` record and an `MX` record the example
translator does not know sends and returns the `A` record only. -/
theorem upsert_returns_sent_witness :
    AppendRecords exampleProvider (statusClient 204) exampleTranslator [] "example.com."
        [(⟨"www", 300, "A", "192.0.2.1"⟩ : RR), ⟨"@", 300, "MX", "mail"⟩]
      = (.ok [⟨"www", 300, "A", "192.0.2.1"⟩],
          [{ method := "PUT"
             url := "https://spaceship.dev/api/v1/dns/records/example.com"
             header := [("X-API-Key", "key"), ("X-API-Secret", "secret"),
               ("Content-Type", "application/json"), ("Accept", "application/json")]
             body := some (.obj [("force", .bool false),
               ("items", .arr [.obj [("type", .str "A"), ("name", .str "www"),
                 ("ttl", .int 300), ("address", .str "192.0.2.1")]])]) }]) ∧
    SetRecords exampleProvider (statusClient 204) exampleTranslator [] "example.com."
        [(⟨"@", 300, "MX", "mail"⟩ : RR)]
      = (.ok [],
          [{ method := "PUT"
             url := "https://spaceship.dev/api/v1/dns/records/example.com"
             header := [("X-API-Key", "key"), ("X-API-Secret", "secret"),
               ("Content-Type", "application/json"), ("Accept", "application/json")]
             body := some (.obj [("force", .bool true), ("items", .null)]) }]) :=
  ⟨upsert_returns_sent exampleProvider (statusClient 204) exampleTranslator [] "example.com."
      [⟨"www", 300, "A", "192.0.2.1"⟩, ⟨"@", 300, "MX", "mail"⟩] false 204 none
      [{ Type_ := "A", Name := "www", TTL := 300, Address := "192.0.2.1" }] _
      (by decide) rfl rfl rfl rfl (by decide),
    upsert_returns_sent exampleProvider (statusClient 204) exampleTranslator [] "example.com."
      [⟨"@", 300, "MX", "mail"⟩] true 204 none [] _ (by decide) rfl rfl rfl rfl (by decide)⟩

/-- C7, as stated, fails: the status 304 lies outside 200..299, and `AppendRecords`,
`SetRecords` and `DeleteRecords` answered with it return their records and no error. -/
theorem status_304_is_success :
    AppendRecords exampleProvider (statusClient 304) exampleTranslator [] "example.com"
        [(⟨"www", 300, "A", "192.0.2.1"⟩ : RR)]
      = (.ok [⟨"www", 300, "A", "192.0.2.1"⟩],
          [upsertRequest exampleProvider "example.com" false
            [{ Type_ := "A", Name := "www", TTL := 300, Address := "192.0.2.1" }]]) ∧
    SetRecords exampleProvider (statusClient 304) exampleTranslator [] "example.com"
        [(⟨"www", 300, "A", "192.0.2.1"⟩ : RR)]
      = (.ok [⟨"www", 300, "A", "192.0.2.1"⟩],
          [upsertRequest exampleProvider "example.com" true
            [{ Type_ := "A", Name := "www", TTL := 300, Address := "192.0.2.1" }]]) ∧
    DeleteRecords exampleProvider (statusClient 304) exampleTranslator [] "example.com"
        [(⟨"www", 300, "A", "192.0.2.1"⟩ : RR)]
      = (.ok [⟨"www", 300, "A", "192.0.2.1"⟩],
          [deleteRequest exampleProvider "example.com"
            [{ Type_ := "A", Name := "www", TTL := 300, Address := "192.0.2.1" }]]) :=
  ⟨rfl, rfl, rfl⟩

/-- C7, amended.  The status 400 is the threshold of failure.  With valid credentials,
when the request is accepted and the response has status `status` and body `respBody`:
if `status ≥ 400`, every iteration of the loop of `GetRecords` (so `GetRecords` itself, at
its first page), `AppendRecords`, `SetRecords` and `DeleteRecords` return no records and
the error "API request failed" carrying `status` and `respBody`, wrapped in the
operation's context; if `status < 400`, in 200..299 or not, the status is no failure:
`AppendRecords` and `SetRecords` return the translation of the items they sent,
`DeleteRecords` returns its input, and the loop of `GetRecords` decodes the body and goes
on as the decoded envelope says (failing only when the body is no list envelope). -/
theorem api_error_fails_operation {ρ : Type} (p : Provider) (c : Client) (T : Translator ρ)
    (sent : List Request) (status : Int) (respBody : Option Json)
    (hcred : p.APIKey ≠ "" ∧ p.APISecret ≠ "") :
    (status ≥ 400 →
      (∀ (zone : String) (take skip : Int) (fuel : Nat) (records : List ρ),
        c.requestError "GET"
          (buildRequest p "GET" (listEndpoint zone take skip) none).url = none →
        c.roundTrip sent (buildRequest p "GET" (listEndpoint zone take skip) none)
          = .received status respBody →
        getLoop p c T zone take (fuel + 1) skip records sent
          = some (.error (.wrap "failed to get records" (.api status respBody)),
              sent ++ [buildRequest p "GET" (listEndpoint zone take skip) none])) ∧
      (∀ (zone : String) (fuel : Nat),
        c.requestError "GET"
          (listRequest p (TrimSuffix zone ".") (effectivePageSize p) 0).url = none →
        c.roundTrip sent (listRequest p (TrimSuffix zone ".") (effectivePageSize p) 0)
          = .received status respBody →
        GetRecords p c T (fuel + 1) sent zone
          = some (.error (.wrap "failed to get records" (.api status respBody)),
              sent ++ [listRequest p (TrimSuffix zone ".") (effectivePageSize p) 0])) ∧
      (∀ (zone : String) (records : List ρ) (force : Bool),
        c.requestError "PUT" (upsertRequest p (TrimSuffix zone ".") force
          (records.filterMap (fun r => T.fromLibdnsRR r (TrimSuffix zone ".")))).url = none →
        c.roundTrip sent (upsertRequest p (TrimSuffix zone ".") force
          (records.filterMap (fun r => T.fromLibdnsRR r (TrimSuffix zone "."))))
            = .received status respBody →
        (if force then SetRecords p c T sent zone records
          else AppendRecords p c T sent zone records)
          = (.error (.wrap
                (if force then "failed to set records" else "failed to append records")
                (.api status respBody)),
              sent ++ [upsertRequest p (TrimSuffix zone ".") force
                (records.filterMap (fun r => T.fromLibdnsRR r (TrimSuffix zone ".")))])) ∧
      (∀ (zone : String) (records : List ρ),
        (∀ r ∈ records, T.fromLibdnsRR r (TrimSuffix zone ".") ≠ none) →
        c.requestError "DELETE" (deleteRequest p (TrimSuffix zone ".")
          (records.filterMap (fun r => T.fromLibdnsRR r (TrimSuffix zone ".")))).url = none →
        c.roundTrip sent (deleteRequest p (TrimSuffix zone ".")
          (records.filterMap (fun r => T.fromLibdnsRR r (TrimSuffix zone "."))))
            = .received status respBody →
        DeleteRecords p c T sent zone records
          = (.error (.wrap "failed to delete records" (.api status respBody)),
              sent ++ [deleteRequest p (TrimSuffix zone ".")
                (records.filterMap (fun r => T.fromLibdnsRR r (TrimSuffix zone ".")))]))) ∧
    (status < 400 →
      (∀ (zone : String) (take skip : Int) (fuel : Nat) (records : List ρ) (lr : listResponse),
        c.requestError "GET"
          (buildRequest p "GET" (listEndpoint zone take skip) none).url = none →
        c.roundTrip sent (buildRequest p "GET" (listEndpoint zone take skip) none)
          = .received status respBody →
        unmarshalListResponse respBody = .ok lr →
        getLoop p c T zone take (fuel + 1) skip records sent
          = if wrapInt (skip + lr.Items.length) ≥ lr.Total then
              some (.ok (records ++ lr.Items.filterMap (fun sr => T.toLibdnsRR sr zone)),
                sent ++ [buildRequest p "GET" (listEndpoint zone take skip) none])
            else
              getLoop p c T zone take fuel (wrapInt (skip + take))
                (records ++ lr.Items.filterMap (fun sr => T.toLibdnsRR sr zone))
                (sent ++ [buildRequest p "GET" (listEndpoint zone take skip) none])) ∧
      (∀ (zone : String) (take skip : Int) (fuel : Nat) (records : List ρ) (e : Error),
        c.requestError "GET"
          (buildRequest p "GET" (listEndpoint zone take skip) none).url = none →
        c.roundTrip sent (buildRequest p "GET" (listEndpoint zone take skip) none)
          = .received status respBody →
        unmarshalListResponse respBody = .error e →
        getLoop p c T zone take (fuel + 1) skip records sent
          = some (.error (.wrap "failed to unmarshal records response" e),
              sent ++ [buildRequest p "GET" (listEndpoint zone take skip) none])) ∧
      (∀ (zone : String) (records : List ρ) (force : Bool),
        c.requestError "PUT" (upsertRequest p (TrimSuffix zone ".") force
          (records.filterMap (fun r => T.fromLibdnsRR r (TrimSuffix zone ".")))).url = none →
        c.roundTrip sent (upsertRequest p (TrimSuffix zone ".") force
          (records.filterMap (fun r => T.fromLibdnsRR r (TrimSuffix zone "."))))
            = .received status respBody →
        (if force then SetRecords p c T sent zone records
          else AppendRecords p c T sent zone records)
          = (.ok ((records.filterMap (fun r => T.fromLibdnsRR r (TrimSuffix zone "."))).filterMap
                (fun it => T.toLibdnsRR it (TrimSuffix zone "."))),
              sent ++ [upsertRequest p (TrimSuffix zone ".") force
                (records.filterMap (fun r => T.fromLibdnsRR r (TrimSuffix zone ".")))])) ∧
      (∀ (zone : String) (records : List ρ),
        (∀ r ∈ records, T.fromLibdnsRR r (TrimSuffix zone ".") ≠ none) →
        c.requestError "DELETE" (deleteRequest p (TrimSuffix zone ".")
          (records.filterMap (fun r => T.fromLibdnsRR r (TrimSuffix zone ".")))).url = none →
        c.roundTrip sent (deleteRequest p (TrimSuffix zone ".")
          (records.filterMap (fun r => T.fromLibdnsRR r (TrimSuffix zone "."))))
            = .received status respBody →
        DeleteRecords p c T sent zone records
          = (.ok records,
              sent ++ [deleteRequest p (TrimSuffix zone ".")
                (records.filterMap (fun r => T.fromLibdnsRR r (TrimSuffix zone ".")))]))) := by
  have hv := validateCredentials_ok p hcred
  constructor
  · intro hstatus
    have hloop : ∀ (zone : String) (take skip : Int) (fuel : Nat) (records : List ρ),
        c.requestError "GET"
          (buildRequest p "GET" (listEndpoint zone take skip) none).url = none →
        c.roundTrip sent (buildRequest p "GET" (listEndpoint zone take skip) none)
          = .received status respBody →
        getLoop p c T zone take (fuel + 1) skip records sent
          = some (.error (.wrap "failed to get records" (.api status respBody)),
              sent ++ [buildRequest p "GET" (listEndpoint zone take skip) none]) := by
      intro zone take skip fuel records h1 h2
      have hd := doRequest_received p c sent "GET" _ none status respBody h1 h2
      simp only [getLoop, hd, if_pos hstatus]
    refine ⟨hloop, ?_, ?_, ?_⟩
    · intro zone fuel h1 h2
      have := hloop (TrimSuffix zone ".") (effectivePageSize p) 0 fuel [] h1 h2
      simpa only [GetRecords, hv, effectivePageSize, listRequest, Nat.cast_zero] using this
    · intro zone records force h1 h2
      have hd := doRequest_received p c sent "PUT" _ _ status respBody h1 h2
      simp only [upsertRequest] at hd ⊢
      cases force with
      | false =>
        simp only [AppendRecords, hv, appendItems_eq, List.nil_append, hd, if_pos hstatus,
          Bool.false_eq_true, if_false]
      | true =>
        simp only [SetRecords, hv, appendItems_eq, List.nil_append, hd, if_pos hstatus,
          if_true]
    · intro zone records hall h1 h2
      have hd := doRequest_received p c sent "DELETE" _ _ status respBody h1 h2
      have hi := deleteItems_all_translatable T (TrimSuffix zone ".") records [] hall
      simp only [deleteRequest] at hd ⊢
      simp only [DeleteRecords, hv, hi, List.nil_append, hd, if_pos hstatus]
  · intro hstatus
    have hns : ¬ status ≥ 400 := by omega
    refine ⟨?_, ?_, ?_, ?_⟩
    · intro zone take skip fuel records lr h1 h2 h3
      have hd := doRequest_received p c sent "GET" _ none status respBody h1 h2
      simp only [getLoop, hd, if_neg hns, h3, appendTranslated_eq]
    · intro zone take skip fuel records e h1 h2 h3
      have hd := doRequest_received p c sent "GET" _ none status respBody h1 h2
      simp only [getLoop, hd, if_neg hns, h3]
    · intro zone records force h1 h2
      have hd := doRequest_received p c sent "PUT" _ _ status respBody h1 h2
      simp only [upsertRequest] at hd ⊢
      cases force with
      | false =>
        simp only [AppendRecords, hv, appendItems_eq, appendTranslated_eq, List.nil_append, hd,
          if_neg hns, Bool.false_eq_true, if_false]
      | true =>
        simp only [SetRecords, hv, appendItems_eq, appendTranslated_eq, List.nil_append, hd,
          if_neg hns, if_true]
    · intro zone records hall h1 h2
      have hd := doRequest_received p c sent "DELETE" _ _ status respBody h1 h2
      have hi := deleteItems_all_translatable T (TrimSuffix zone ".") records [] hall
      simp only [deleteRequest] at hd ⊢
      simp only [DeleteRecords, hv, hi, List.nil_append, hd, if_neg hns]

/-- Instance of the amended C7: `DeleteRecords` answered with the status 500 fails, and
answered with the status 399 it returns its input. -/
theorem api_error_fails_operation_witness :
    DeleteRecords exampleProvider (statusClient 500) exampleTranslator [] "example.com"
        [(⟨"www", 300, "A", "192.0.2.1"⟩ : RR)]
      = (.error (.wrap "failed to delete records" (.api 500 none)),
          [deleteRequest exampleProvider "example.com"
            [{ Type_ := "A", Name := "www", TTL := 300, Address := "192.0.2.1" }]]) ∧
    DeleteRecords exampleProvider (statusClient 399) exampleTranslator [] "example.com"
        [(⟨"www", 300, "A", "192.0.2.1"⟩ : RR)]
      = (.ok [⟨"www", 300, "A", "192.0.2.1"⟩],
          [deleteRequest exampleProvider "example.com"
            [{ Type_ := "A", Name := "www", TTL := 300, Address := "192.0.2.1" }]]) :=
  ⟨((api_error_fails_operation exampleProvider (statusClient 500) exampleTranslator [] 500 none
      (by decide)).1 (by decide)).2.2.2 "example.com" [⟨"www", 300, "A", "192.0.2.1"⟩]
      (by decide) rfl rfl,
    ((api_error_fails_operation exampleProvider (statusClient 399) exampleTranslator [] 399 none
      (by decide)).2 (by decide)).2.2.2 "example.com" [⟨"www", 300, "A", "192.0.2.1"⟩]
      (by decide) rfl rfl⟩

theorem wrapInt_eq (x : Int) (h : inInt64 x) : wrapInt x = x := by
  unfold inInt64 at h
  unfold wrapInt
  omega

theorem pageCount_le (n t a : Nat) (ht : 0 < t) (ha : 1 ≤ a) (h : n ≤ a * t) :
    pageCount n t ≤ a := by
  unfold pageCount
  have h1 : (n + t - 1) / t < a + 1 := by
    rw [Nat.div_lt_iff_lt_mul ht]
    have : (a + 1) * t = a * t + t := by ring
    omega
  omega

theorem lt_pageCount (n t a : Nat) (ht : 0 < t) (h : a * t < n) : a < pageCount n t := by
  unfold pageCount
  have h1 : a + 1 ≤ (n + t - 1) / t := by
    rw [Nat.le_div_iff_mul_le ht]
    have : (a + 1) * t = a * t + t := by ring
    omega
  omega

theorem page_done (s t n len : Nat) (hlen : len = min t (n - s)) (hs : s ≤ n)
    (hn : (n : Int) ≤ 9223372036854775807) :
    wrapInt ((s : Int) + (len : Int)) ≥ (n : Int) ↔ n ≤ s + t := by
  have hr : inInt64 ((s : Int) + (len : Int)) := by
    unfold inInt64; omega
  rw [wrapInt_eq _ hr]
  omega

theorem next_skip (s t n : Nat) (take : Int) (htc : (t : Int) = take) (h : s + t < n)
    (hn : (n : Int) ≤ 9223372036854775807) :
    wrapInt ((s : Int) + take) = ((s + t : Nat) : Int) := by
  have hr : inInt64 ((s : Int) + take) := by
    unfold inInt64; omega
  rw [wrapInt_eq _ hr]
  omega

theorem getLoop_pages {ρ : Type} (p : Provider) (c : Client) (T : Translator ρ) (zone : String)
    (take : Int) (L : List spaceshipRecordUnion) (htake : 0 < take)
    (hmax : take ≤ 9223372036854775807) (hN : (L.length : Int) ≤ 9223372036854775807)
    (hs : servesList p c zone take L) :
    ∀ (j k fuel : Nat) (records : List ρ) (sent : List Request),
      k + j = pageCount L.length take.toNat → 1 ≤ j → (k = 0 ∨ k * take.toNat < L.length) →
      j ≤ fuel →
      getLoop p c T zone take fuel ((k * take.toNat : Nat) : Int) records sent
        = some (.ok (records ++ (L.drop (k * take.toNat)).filterMap
              (fun sr => T.toLibdnsRR sr zone)),
            sent ++ (List.range' k j).map
              (fun i => listRequest p zone take (i * take.toNat))) := by
  have ht : 0 < take.toNat := by omega
  have htc : (take.toNat : Int) = take := Int.toNat_of_nonneg (le_of_lt htake)
  intro j
  induction j with
  | zero => intro k fuel records sent _ h1; omega
  | succ j ih =>
    intro k fuel records sent hk _ hinv hfuel
    obtain ⟨fuel, rfl⟩ : ∃ f, fuel = f + 1 := ⟨fuel - 1, by omega⟩
    have hkN : k * take.toNat ≤ L.length := by
      rcases hinv with h | h
      · simp [h]
      · omega
    obtain ⟨h1, status, body, h2, h3, h4⟩ := hs k (by omega) sent
    have hd := doRequest_received p c sent "GET"
      (listEndpoint zone take ((k * take.toNat : Nat) : Int)) none status body h1 h2
    have hns : ¬ status ≥ 400 := by omega
    have hlen : ((L.drop (k * take.toNat)).take take.toNat).length
        = min take.toNat (L.length - k * take.toNat) := by
      simp [List.length_take, List.length_drop]
    have hsucc : (k + 1) * take.toNat = k * take.toNat + take.toNat := by ring
    simp only [getLoop, hd, if_neg hns, h4, appendTranslated_eq]
    have hcond := page_done (k * take.toNat) take.toNat L.length _ hlen hkN hN
    by_cases hlast : L.length ≤ k * take.toNat + take.toNat
    · have hj : j = 0 := by
        have := pageCount_le L.length take.toNat (k + 1) ht (by omega) (by omega)
        omega
      have htk : (L.drop (k * take.toNat)).take take.toNat = L.drop (k * take.toNat) := by
        apply List.take_of_length_le
        rw [List.length_drop]
        exact Nat.sub_le_iff_le_add'.mpr hlast
      rw [if_pos (hcond.mpr hlast), htk, hj]
      rfl
    · have hlt : (k + 1) * take.toNat < L.length := by
        rw [hsucc]; exact Nat.lt_of_not_le hlast
      have hnext := next_skip (k * take.toNat) take.toNat L.length take htc
        (by rw [← hsucc]; exact hlt) hN
      have hj : 1 ≤ j := by
        have := lt_pageCount L.length take.toNat (k + 1) ht hlt
        omega
      rw [if_neg (fun h => hlast (hcond.mp h)), hnext, ← hsucc]
      rw [ih (k + 1) fuel _ (sent ++ [buildRequest p "GET"
        (listEndpoint zone take ((k * take.toNat : Nat) : Int)) none]) (by omega) hj
        (Or.inr hlt) (by omega)]
      have hdrop : L.drop ((k + 1) * take.toNat)
          = (L.drop (k * take.toNat)).drop take.toNat := by
        rw [List.drop_drop, hsucc, Nat.add_comm]
      have hsplit : (L.drop (k * take.toNat)).filterMap (fun sr => T.toLibdnsRR sr zone)
          = ((L.drop (k * take.toNat)).take take.toNat).filterMap
              (fun sr => T.toLibdnsRR sr zone)
            ++ ((L.drop (k * take.toNat)).drop take.toNat).filterMap
              (fun sr => T.toLibdnsRR sr zone) := by
        rw [← List.filterMap_append, List.take_append_drop]
      rw [hdrop, hsplit, List.range'_succ]
      simp only [listRequest, List.append_assoc, List.map_cons, List.singleton_append]

theorem effectivePageSize_pos (p : Provider) : 0 < effectivePageSize p := by
  unfold effectivePageSize
  split <;> omega

theorem exampleListClient_serves :
    servesList pagedProvider exampleListClient (TrimSuffix "example.com." ".")
      (effectivePageSize pagedProvider) exampleRecords := by
  intro k hk sent
  have hk3 : k < 3 := hk
  interval_cases k
  · exact ⟨rfl, 200, _, rfl, by decide, rfl⟩
  · exact ⟨rfl, 200, _, rfl, by decide, rfl⟩
  · exact ⟨rfl, 200, _, rfl, by decide, rfl⟩

/-- C1.  `GetRecords` pagination.  Let the server hold the list `L` of `N` wire records and
answer each list request (`take = t`, `skip = s`) with the items `L[s .. min (s + t) N)` and
the total `N`, where `t` is the effective page size (`PageSize` when positive, else 100;
`PageSize` and `N` are Go `int`s).  Then with valid credentials and enough fuel `GetRecords`
returns, in order, the translations of the items of `L` the translator can represent, and
sends exactly `max 1 ⌈N / t⌉` requests, which are the `GET` list requests with `take = t`
and `skip = 0, t, 2t, ...` in that order.  For `N = 250` and `t = 100` these are the three
requests with `skip` 0, 100 and 200. -/
theorem list_pagination {ρ : Type} (p : Provider) (c : Client) (T : Translator ρ)
    (sent : List Request) (zone : String) (L : List spaceshipRecordUnion)
    (hcred : p.APIKey ≠ "" ∧ p.APISecret ≠ "")
    (hsize : p.PageSize ≤ 9223372036854775807)
    (hN : (L.length : Int) ≤ 9223372036854775807)
    (hserver : servesList p c (TrimSuffix zone ".") (effectivePageSize p) L) :
    (∀ fuel : Nat, pageCount L.length (effectivePageSize p).toNat ≤ fuel →
      GetRecords p c T fuel sent zone
        = some (.ok (L.filterMap (fun sr => T.toLibdnsRR sr (TrimSuffix zone "."))),
            sent ++ (List.range (pageCount L.length (effectivePageSize p).toNat)).map
              (fun k => listRequest p (TrimSuffix zone ".") (effectivePageSize p)
                (k * (effectivePageSize p).toNat)))) ∧
    ((List.range (pageCount L.length (effectivePageSize p).toNat)).map
        (fun k => listRequest p (TrimSuffix zone ".") (effectivePageSize p)
          (k * (effectivePageSize p).toNat))).length
      = max 1 ((L.length + (effectivePageSize p).toNat - 1) / (effectivePageSize p).toNat) ∧
    (∀ skip : Nat,
      (listRequest p (TrimSuffix zone ".") (effectivePageSize p) skip).method = "GET" ∧
      (listRequest p (TrimSuffix zone ".") (effectivePageSize p) skip).url
        = getBaseURL p ++ ("/v1/dns/records/" ++ TrimSuffix zone "." ++ "?take="
            ++ toString (effectivePageSize p) ++ "&skip=" ++ toString (skip : Int))) ∧
    (L.length = 250 → p.PageSize = 100 → ∀ fuel : Nat, 3 ≤ fuel →
      GetRecords p c T fuel sent zone
        = some (.ok (L.filterMap (fun sr => T.toLibdnsRR sr (TrimSuffix zone "."))),
            sent ++ [listRequest p (TrimSuffix zone ".") 100 0,
              listRequest p (TrimSuffix zone ".") 100 100,
              listRequest p (TrimSuffix zone ".") 100 200])) := by
  have hv := validateCredentials_ok p hcred
  have hpos := effectivePageSize_pos p
  have hmax : effectivePageSize p ≤ 9223372036854775807 := by
    unfold effectivePageSize
    split <;> omega
  have main : ∀ fuel : Nat, pageCount L.length (effectivePageSize p).toNat ≤ fuel →
      GetRecords p c T fuel sent zone
        = some (.ok (L.filterMap (fun sr => T.toLibdnsRR sr (TrimSuffix zone "."))),
            sent ++ (List.range (pageCount L.length (effectivePageSize p).toNat)).map
              (fun k => listRequest p (TrimSuffix zone ".") (effectivePageSize p)
                (k * (effectivePageSize p).toNat))) := by
    intro fuel hfuel
    have h1 : 1 ≤ pageCount L.length (effectivePageSize p).toNat := by
      unfold pageCount; omega
    have hl := getLoop_pages p c T (TrimSuffix zone ".") (effectivePageSize p) L hpos hmax hN
      hserver (pageCount L.length (effectivePageSize p).toNat) 0 fuel [] sent (by omega) h1
      (Or.inl rfl) hfuel
    simp only [Nat.zero_mul, Nat.cast_zero, List.drop_zero, List.nil_append] at hl
    rw [List.range_eq_range']
    simpa only [GetRecords, hv, effectivePageSize] using hl
  refine ⟨main, ?_, ?_, ?_⟩
  · simp [pageCount]
  · intro skip
    exact ⟨rfl, rfl⟩
  · intro h250 h100 fuel hfuel
    have he : effectivePageSize p = 100 := by simp [effectivePageSize, h100]
    have hpc : pageCount L.length (effectivePageSize p).toNat = 3 := by
      rw [he, h250]; decide
    have := main fuel (by omega)
    rw [hpc, he] at this
    simpa [List.range_succ] using this

/-- Instance of C1: five records in pages of two are fetched with three requests. -/
theorem list_pagination_witness :
    GetRecords pagedProvider exampleListClient exampleTranslator 3 [] "example.com."
      = some (.ok (exampleRecords.filterMap
            (fun sr => exampleTranslator.toLibdnsRR sr (TrimSuffix "example.com." "."))),
          [] ++ (List.range
              (pageCount exampleRecords.length (effectivePageSize pagedProvider).toNat)).map
            (fun k => listRequest pagedProvider (TrimSuffix "example.com." ".")
              (effectivePageSize pagedProvider)
              (k * (effectivePageSize pagedProvider).toNat))) :=
  (list_pagination pagedProvider exampleListClient exampleTranslator [] "example.com."
    exampleRecords (by decide) (by decide) (by decide) exampleListClient_serves).1 3
    (by decide)

theorem TrimSuffix_dot_append (z : String) : TrimSuffix (z ++ ".") "." = z := by
  have hd : (z ++ ".").data = z.data ++ ['.'] := by simp [String.data_append]
  have hs : HasSuffix (z ++ ".") "." = true := by
    simp [HasSuffix, hd, List.isSuffixOf, List.reverse_append]
  simp [TrimSuffix, hs, hd]

theorem TrimSuffix_of_not_HasSuffix (z suf : String) (h : HasSuffix z suf = false) :
    TrimSuffix z suf = z := by
  simp [TrimSuffix, h]

theorem doRequest_log (p : Provider) (c : Client) (sent : List Request)
    (method endpoint : String) (body : Option Payload) :
    (doRequest p c sent method endpoint body).2 = sent ∨
    (doRequest p c sent method endpoint body).2
      = sent ++ [buildRequest p method endpoint body] := by
  unfold doRequest
  simp only
  split
  · exact Or.inl rfl
  · split
    · exact Or.inr rfl
    · exact Or.inr rfl
    · split <;> exact Or.inr rfl

theorem getLoop_log {ρ : Type} (p : Provider) (c : Client) (T : Translator ρ) (zone : String)
    (take : Int) :
    ∀ (fuel : Nat) (skip : Int) (records : List ρ) (sent : List Request) (out : Outcome ρ),
      getLoop p c T zone take fuel skip records sent = some out →
      ∀ req ∈ out.2, req ∈ sent ∨
        ∃ skip1 : Int, req = buildRequest p "GET" (listEndpoint zone take skip1) none := by
  intro fuel
  induction fuel with
  | zero => intro skip records sent out h; simp [getLoop] at h
  | succ fuel ih =>
    intro skip records sent out h req hreq
    have hlog := doRequest_log p c sent "GET" (listEndpoint zone take skip) none
    have hmem : ∀ r ∈ (doRequest p c sent "GET" (listEndpoint zone take skip) none).2,
        r ∈ sent ∨ ∃ skip1 : Int, r = buildRequest p "GET" (listEndpoint zone take skip1) none := by
      intro r hr
      rcases hlog with e | e
      · rw [e] at hr; exact Or.inl hr
      · rw [e] at hr
        rcases List.mem_append.mp hr with h1 | h1
        · exact Or.inl h1
        · exact Or.inr ⟨skip, by simpa using h1⟩
    simp only [getLoop] at h
    split at h
    · cases h; exact hmem req hreq
    · split at h
      · cases h; exact hmem req hreq
      · split at h
        · cases h; exact hmem req hreq
        · rcases ih _ _ _ out h req hreq with h1 | h1
          · exact hmem req h1
          · exact Or.inr h1

theorem getLoop_congr {ρ : Type} (p : Provider) (c : Client) (T T1 : Translator ρ)
    (zone : String) (take : Int) (hto : ∀ sr, T.toLibdnsRR sr zone = T1.toLibdnsRR sr zone) :
    ∀ (fuel : Nat) (skip : Int) (records : List ρ) (sent : List Request),
      getLoop p c T zone take fuel skip records sent
        = getLoop p c T1 zone take fuel skip records sent := by
  have hf : (fun sr => T.toLibdnsRR sr zone) = (fun sr => T1.toLibdnsRR sr zone) := funext hto
  intro fuel
  induction fuel with
  | zero => intro skip records sent; rfl
  | succ fuel ih =>
    intro skip records sent
    simp only [getLoop, appendTranslated_eq, hf, ih]

theorem deleteItems_congr {ρ : Type} (T T1 : Translator ρ) (zone : String)
    (hfrom : ∀ r, T.fromLibdnsRR r zone = T1.fromLibdnsRR r zone)
    (hty : ∀ r, T.rrType r = T1.rrType r) :
    ∀ (records : List ρ) (items : List spaceshipRecordUnion),
      deleteItems T zone items records = deleteItems T1 zone items records := by
  intro records
  induction records with
  | nil => intro items; rfl
  | cons r rest ih =>
    intro items
    simp only [deleteItems, hfrom, hty, ih]

/-- C10.  Absolute and relative zone names are equivalent.  For a zone `z` that does not
end in `.`, each of `GetRecords`, `AppendRecords`, `SetRecords` and `DeleteRecords` called
with `z` followed by `.` has the outcome (result and requests sent) of the call with `z`,
and the zone handed to the translator is `z` in both: the outcomes stay equal when the
second call uses any translator that agrees with the first at the zone `z`.  Every request
the calls add has the path `/v1/dns/records/z`, followed by `?take=..&skip=..` for
listing. -/
theorem zone_trailing_dot {ρ : Type} (p : Provider) (c : Client) (T : Translator ρ)
    (sent : List Request) (z : String) (hz : HasSuffix z "." = false) :
    (∀ T1 : Translator ρ, (∀ sr, T.toLibdnsRR sr z = T1.toLibdnsRR sr z) →
      (∀ r, T.fromLibdnsRR r z = T1.fromLibdnsRR r z) → (∀ r, T.rrType r = T1.rrType r) →
      (∀ fuel, GetRecords p c T fuel sent (z ++ ".") = GetRecords p c T1 fuel sent z) ∧
      (∀ records, AppendRecords p c T sent (z ++ ".") records
        = AppendRecords p c T1 sent z records) ∧
      (∀ records, SetRecords p c T sent (z ++ ".") records
        = SetRecords p c T1 sent z records) ∧
      (∀ records, DeleteRecords p c T sent (z ++ ".") records
        = DeleteRecords p c T1 sent z records)) ∧
    (∀ fuel out, GetRecords p c T fuel sent z = some out → ∀ req ∈ out.2, req ∈ sent ∨
      ∃ skip : Int, req.url = getBaseURL p ++ ("/v1/dns/records/" ++ z ++ "?take="
        ++ toString (effectivePageSize p) ++ "&skip=" ++ toString skip)) ∧
    (∀ records, ∀ req ∈ (AppendRecords p c T sent z records).2,
      req ∈ sent ∨ req.url = getBaseURL p ++ ("/v1/dns/records/" ++ z)) ∧
    (∀ records, ∀ req ∈ (SetRecords p c T sent z records).2,
      req ∈ sent ∨ req.url = getBaseURL p ++ ("/v1/dns/records/" ++ z)) ∧
    (∀ records, ∀ req ∈ (DeleteRecords p c T sent z records).2,
      req ∈ sent ∨ req.url = getBaseURL p ++ ("/v1/dns/records/" ++ z)) := by
  have e1 := TrimSuffix_dot_append z
  have e2 := TrimSuffix_of_not_HasSuffix z "." hz
  have hput : ∀ (body : Option Payload),
      ∀ req ∈ (doRequest p c sent "PUT" (zoneEndpoint z) body).2,
        req ∈ sent ∨ req.url = getBaseURL p ++ ("/v1/dns/records/" ++ z) := by
    intro body req hreq
    rcases doRequest_log p c sent "PUT" (zoneEndpoint z) body with e | e
    · rw [e] at hreq; exact Or.inl hreq
    · rw [e] at hreq
      rcases List.mem_append.mp hreq with h1 | h1
      · exact Or.inl h1
      · have : req = buildRequest p "PUT" (zoneEndpoint z) body := by simpa using h1
        exact Or.inr (by rw [this]; rfl)
  have hdel : ∀ (body : Option Payload),
      ∀ req ∈ (doRequest p c sent "DELETE" (zoneEndpoint z) body).2,
        req ∈ sent ∨ req.url = getBaseURL p ++ ("/v1/dns/records/" ++ z) := by
    intro body req hreq
    rcases doRequest_log p c sent "DELETE" (zoneEndpoint z) body with e | e
    · rw [e] at hreq; exact Or.inl hreq
    · rw [e] at hreq
      rcases List.mem_append.mp hreq with h1 | h1
      · exact Or.inl h1
      · have : req = buildRequest p "DELETE" (zoneEndpoint z) body := by simpa using h1
        exact Or.inr (by rw [this]; rfl)
  refine ⟨?_, ?_, ?_, ?_, ?_⟩
  · intro T1 hto hfrom hty
    have hf1 : (fun sr => T.toLibdnsRR sr z) = (fun sr => T1.toLibdnsRR sr z) := funext hto
    have hf2 : (fun r => T.fromLibdnsRR r z) = (fun r => T1.fromLibdnsRR r z) := funext hfrom
    refine ⟨?_, ?_, ?_, ?_⟩
    · intro fuel
      simp only [GetRecords, e1, e2, getLoop_congr p c T T1 z _ hto]
    · intro records
      simp only [AppendRecords, e1, e2, appendItems_eq, appendTranslated_eq, hf1, hf2]
    · intro records
      simp only [SetRecords, e1, e2, appendItems_eq, appendTranslated_eq, hf1, hf2]
    · intro records
      simp only [DeleteRecords, e1, e2, deleteItems_congr T T1 z hfrom hty]
  · intro fuel out h req hreq
    unfold GetRecords at h
    split at h
    · cases h; exact Or.inl hreq
    · rw [e2] at h
      rcases getLoop_log p c T z _ fuel 0 [] sent out h req hreq with h1 | ⟨skip, h1⟩
      · exact Or.inl h1
      · exact Or.inr ⟨skip, by rw [h1]; rfl⟩
  · intro records req hreq
    unfold AppendRecords at hreq
    split at hreq
    · exact Or.inl hreq
    · rw [e2] at hreq
      simp only at hreq
      split at hreq <;> exact hput _ req hreq
  · intro records req hreq
    unfold SetRecords at hreq
    split at hreq
    · exact Or.inl hreq
    · rw [e2] at hreq
      simp only at hreq
      split at hreq <;> exact hput _ req hreq
  · intro records req hreq
    unfold DeleteRecords at hreq
    split at hreq
    · exact Or.inl hreq
    · rw [e2] at hreq
      simp only at hreq
      split at hreq
      · exact Or.inl hreq
      · split at hreq <;> exact hdel _ req hreq

/-- Instance of C10: appending to the zone `example.com.` and to `example.com`. -/
theorem zone_trailing_dot_witness :
    AppendRecords exampleProvider (statusClient 204) exampleTranslator [] ("example.com" ++ ".")
        [(⟨"www", 300, "A", "192.0.2.1"⟩ : RR)]
      = AppendRecords exampleProvider (statusClient 204) exampleTranslator [] "example.com"
        [(⟨"www", 300, "A", "192.0.2.1"⟩ : RR)] :=
  ((zone_trailing_dot exampleProvider (statusClient 204) exampleTranslator [] "example.com"
    (by decide)).1 exampleTranslator (fun _ => rfl) (fun _ => rfl) (fun _ => rfl)).2.1
    [⟨"www", 300, "A", "192.0.2.1"⟩]

/-- C6, at the input `{"type": "CAA", "name": "@", "flag": null}`: the `flag` value is not an
integer, yet the decoded `Flag` is not left nil but set to an explicit zero, whereas it is
nil when the key is absent; likewise a `null` port leaves `Port` holding the integer zero. -/
theorem null_flag_decodes_to_zero :
    (∃ r, decodeRecord (some (.obj [("type", .str "CAA"), ("name", .str "@"), ("flag", .null)]))
        = .ok r ∧ r.Flag = some 0) ∧
    (∃ r, decodeRecord (some (.obj [("type", .str "CAA"), ("name", .str "@")])) = .ok r ∧
      r.Flag = none) ∧
    (∃ r, decodeRecord (some (.obj [("type", .str "SRV"), ("name", .str "@"), ("port", .null)]))
        = .ok r ∧ r.Port = some (.int 0)) ∧
    (∃ r, decodeRecord (some (.obj [("type", .str "CAA"), ("name", .str "@"), ("ttl", .null)]))
        = .ok r ∧ r.TTL = 0) :=
  ⟨⟨_, rfl, rfl⟩, ⟨_, rfl, rfl⟩, ⟨_, rfl, rfl⟩, ⟨_, rfl, rfl⟩⟩

end Spaceship
